import Mathlib

/-!
# Verification of the tabu-search D2D engine

Shallow embedding, over exact rationals, of the parts of the
`Serious-senpai/tabu-search` repository that the checked claims are about:

* `ts/utils/py_utils.py`: `isclose`, `cost_dominate`;
* `ts/abc/multi_ob/costs.py`: `ParetoSet.add`;
* `ts/abc/bases.py`: `BaseNeighborhood.add_to_tabu`, `reset_tabu`;
* `ts/abc/multi_ob/solutions.py`: the prologue of `tabu_search`;
* `ts/d2d/solutions.py`: `calculate_drone_arrival_timestamps`,
  `calculate_technician_arrival_timestamps`, the waiting-time kernels,
  the `D2DPathSolution` constructor, `shuffle` and `initial`;
* `ts/d2d/neighborhoods/factory.py`: `SolutionFactory.from_solution`;
* `ts/d2d/neighborhoods/swap.py`: `Swap.__init__` and the tabu keys
  produced by `swap_drone_drone`;
* `d2d.py`: `normalization` and `_ideal_distance_key`.

Python floats are modelled as `ℚ`; fallible code returns `Option`/`Except`;
`while` loops whose variant is not structural take an explicit fuel argument
and return `none` when it runs out.
-/

namespace TS

/-- `isclose` from `ts/utils/py_utils.py` (scalar case):
`abs(first - second) < 0.0001`. -/
def isclose (first second : ℚ) : Bool :=
  |first - second| < 1 / 10000

/-- The accumulator loop of `cost_dominate` from `ts/utils/py_utils.py`:
walk the zipped components, skip components that are `isclose`, fail as soon
as `f > s`, remember success when `f < s`. -/
def costDominateAux (result : Bool) : List ℚ → List ℚ → Bool
  | _, [] => result
  | [], _ => result
  | f :: fs, s :: ss =>
    if isclose f s then costDominateAux result fs ss
    else if f > s then false
    else costDominateAux true fs ss

/-- `cost_dominate(first, second)` from `ts/utils/py_utils.py`. -/
def costDominate (first second : List ℚ) : Bool :=
  costDominateAux false first second

/-- Python's banker's rounding of a rational to the nearest integer
(ties go to the even integer). -/
def pyRoundInt (x : ℚ) : ℤ :=
  let f := ⌊x⌋
  let r := x - f
  if r < 1 / 2 then f
  else if r > 1 / 2 then f + 1
  else if f % 2 = 0 then f else f + 1

/-- `round(c, 4)`: round to 4 decimal places. -/
def pyRound4 (x : ℚ) : ℚ :=
  (pyRoundInt (x * 10000) : ℚ) / 10000

/-- A solution as seen by the Pareto set: an identity plus its cost vector
(`BaseMulticostComparison.cost`). -/
structure PSol where
  sid : ℕ
  cost : List ℚ
  deriving DecidableEq, Repr

/-- The state of a `ParetoSet` (`ts/abc/multi_ob/costs.py`): the
`__cost_to_solutions` mapping, modelled as an association list from rounded
cost vectors to the bucket of solutions sharing that cost. -/
abbrev ParetoSet := List (List ℚ × List PSol)

/-- Union of the buckets of all keys in `removed_costs`
(`itertools.chain(*[self.__cost_to_solutions[c] for c in removed_costs])`). -/
def evictedSolutions (p : ParetoSet) (removedCosts : List (List ℚ)) : List PSol :=
  (p.filter (fun kv => kv.1 ∈ removedCosts)).foldr (fun kv acc => kv.2 ++ acc) []

/-- `ParetoSet.add(s)` from `ts/abc/multi_ob/costs.py`.  Returns the new
mapping together with the `(added?, removed)` pair the method returns. -/
def paretoAdd (p : ParetoSet) (s : PSol) : ParetoSet × Bool × List PSol :=
  let sCost := s.cost.map pyRound4
  match List.lookup sCost p with
  | some bucket =>
      -- key present: extend the bucket (if `s` is new there), report `(True, ∅)`
      let newBucket := if s ∈ bucket then bucket else bucket ++ [s]
      (p.map (fun kv => if kv.1 = sCost then (kv.1, newBucket) else kv), true, [])
  | none =>
      -- `KeyError` branch
      let removedCosts := (p.map Prod.fst).filter (fun c => costDominate sCost c)
      let removed := evictedSolutions p removedCosts
      let p' := p.filter (fun kv => ¬ costDominate sCost kv.1)
      if (p'.map Prod.fst).any (fun c => costDominate c sCost) then
        (p', false, removed)
      else
        (p' ++ [(sCost, [s])], true, removed)

/-! ## Tabu registry (`BaseNeighborhood.add_to_tabu`, `ts/abc/bases.py`)

The registry keeps a deque `_tabu_list` and a set `tabu_set` holding the same
keys; the deque is modelled as a `List` (head = deque front). -/

variable {K : Type} [DecidableEq K]

/-- `deque.rotate(-1)`: move the front element to the back. -/
def rotLeft : List K → List K
  | [] => []
  | x :: xs => xs ++ [x]

/-- One step of `deque.rotate(1)`: move the back element to the front. -/
def rotRightOne (l : List K) : List K :=
  l.drop (l.length - 1) ++ l.take (l.length - 1)

/-- `deque.rotate(n)` for `n ≥ 0`. -/
def rotRight (n : ℕ) (l : List K) : List K :=
  rotRightOne^[n] l

/-- The loop `while tabu_list[0] != target: tabu_list.rotate(-1); rotated += 1`
of `add_to_tabu`, with fuel (the loop terminates because the branch is only
taken when `target` is in the deque). Returns `(rotated, deque)`. -/
def rotateToHead (k : K) : ℕ → List K → ℕ × List K
  | 0, l => (0, l)
  | fuel + 1, l =>
    match l with
    | [] => (0, [])
    | x :: xs =>
      if x = k then (0, x :: xs)
      else
        let p := rotateToHead k fuel (rotLeft (x :: xs))
        (p.1 + 1, p.2)

/-- `BaseNeighborhood.__remove_from_tabu`:
`while len(tabu_set) > maxlen: tabu_set.remove(tabu_list.popleft())`. -/
def trimTabu (M : ℕ) : List K → List K
  | [] => []
  | x :: xs => if (x :: xs).length ≤ M then x :: xs else trimTabu M xs

/-- `BaseNeighborhood.add_to_tabu(target)` with capacity `maxlen = M`. -/
def addToTabu (M : ℕ) (l : List K) (k : K) : List K :=
  if k ∈ l then
    let p := rotateToHead k l.length l
    rotRight p.1 p.2.tail ++ [k]
  else
    trimTabu M (l ++ [k])

/-! ## Problem data and drone path kernels (`ts/d2d/solutions.py`) -/

/-- The fields of `DroneLinearConfig` (`ts/d2d/config.py`) that the claims
use; `power(w) = beta * w + gamma` for all three flight phases. -/
structure DroneConfig where
  takeoffSpeed : ℚ
  cruiseSpeed : ℚ
  landingSpeed : ℚ
  altitude : ℚ
  capacity : ℚ
  battery : ℚ
  beta : ℚ
  gamma : ℚ
  deriving Repr

/-- `DroneLinearConfig._power`. -/
def DroneConfig.power (c : DroneConfig) (weight : ℚ) : ℚ :=
  c.beta * weight + c.gamma

/-- The problem record (`D2DPathSolution` class variables populated by
`import_problem`, plus the truck configuration). -/
structure Problem where
  customersCount : ℕ
  dronesCount : ℕ
  techniciansCount : ℕ
  distances : ℕ → ℕ → ℚ
  demands : ℕ → ℚ
  dronable : ℕ → Bool
  droneServiceTime : ℕ → ℚ
  technicianServiceTime : ℕ → ℚ
  truckMaximumVelocity : ℚ
  truckCoefficients : List ℚ
  config : DroneConfig

/-- The running part of `D2DPathSolution.calculate_drone_arrival_timestamps`:
`last` is the previous node, `cur` the timestamp accumulated so far. -/
def droneArrivalAux (p : Problem) (c : DroneConfig) (verticalTime : ℚ)
    (last : ℕ) (cur : ℚ) : List ℕ → List ℚ
  | [] => []
  | index :: rest =>
    let shift : ℚ :=
      if index = last then 0
      else p.droneServiceTime last + verticalTime
        + p.distances last index / c.cruiseSpeed
    (cur + shift) :: droneArrivalAux p c verticalTime index (cur + shift) rest

/-- `D2DPathSolution.calculate_drone_arrival_timestamps(path, offset)`.
The source indexes `path[0]`; an empty path would raise, modelled by `[]`. -/
def calculateDroneArrivalTimestamps (p : Problem) (c : DroneConfig)
    (path : List ℕ) (offset : ℚ) : List ℚ :=
  match path with
  | [] => []
  | p0 :: rest =>
    let verticalTime := c.altitude * (1 / c.takeoffSpeed + 1 / c.landingSpeed)
    offset :: droneArrivalAux p c verticalTime p0 offset rest

/-- `for path_index, index in enumerate(path[1:-1], start=1): result +=
ts[-1] - ts[path_index] - service_time[index]` — the summation loop shared
by the two waiting-time kernels. -/
def totalWaitAux (service : ℕ → ℚ) (lastTs : ℚ) (ts : List ℚ) :
    ℕ → List ℕ → ℚ
  | _, [] => 0
  | i, n :: rest =>
    (lastTs - ts.getD i 0 - service n) + totalWaitAux service lastTs ts (i + 1) rest

/-- `D2DPathSolution.calculate_drone_total_waiting_time(path)` given the
arrival timestamps. -/
def calculateDroneTotalWaitingTime (p : Problem) (path : List ℕ)
    (ts : List ℚ) : ℚ :=
  totalWaitAux p.droneServiceTime (ts.getLastD 0) ts 1 (path.drop 1).dropLast

/-- `D2DPathSolution.calculate_technician_total_waiting_time(path)` given
the arrival timestamps. -/
def calculateTechnicianTotalWaitingTime (p : Problem) (path : List ℕ)
    (ts : List ℚ) : ℚ :=
  totalWaitAux p.technicianServiceTime (ts.getLastD 0) ts 1 (path.drop 1).dropLast

/-- `D2DPathSolution.calculate_total_weight(path)`. -/
def calculateTotalWeight (p : Problem) (path : List ℕ) : ℚ :=
  (path.map p.demands).sum

/-- The edge loop of `calculate_drone_energy_consumption`, carrying
`(result, weight)`. -/
def droneEnergyAux (p : Problem) (c : DroneConfig)
    (takeoffTime landingTime : ℚ) (last : ℕ) (acc : ℚ × ℚ) :
    List ℕ → ℚ
  | [] => acc.1
  | index :: rest =>
    let cruiseTime := p.distances last index / c.cruiseSpeed
    let result := acc.1 + takeoffTime * c.power acc.2
      + cruiseTime * c.power acc.2 + landingTime * c.power acc.2
    droneEnergyAux p c takeoffTime landingTime index
      (result, acc.2 + p.demands index) rest

/-- `D2DPathSolution.calculate_drone_energy_consumption(path)` for the
linear configuration (`takeoff/cruise/landing_power` are all
`beta * w + gamma`); the `arrival_timestamps` parameter of the source is
never read by the body. -/
def calculateDroneEnergyConsumption (p : Problem) (c : DroneConfig)
    (path : List ℕ) : ℚ :=
  let takeoffTime := c.altitude / c.takeoffSpeed
  let landingTime := c.altitude / c.landingSpeed
  match path with
  | [] => 0
  | p0 :: rest => droneEnergyAux p c takeoffTime landingTime p0 (0, 0) rest

/-! ## Technician path kernel
(`D2DPathSolution.calculate_technician_arrival_timestamps`)

The truck drives at `maximum_velocity * coefficient`, the coefficient
cycling every 3600 s of elapsed truck time.  The two inner `while` loops
take fuel and the whole kernel returns `none` when it runs out. -/

/-- `next(coefficients_iter)` of the `itertools.cycle`: the coefficient at
`cursor` (mod the list length) and the advanced cursor. -/
def nextCoef (p : Problem) (cursor : ℕ) : ℚ × ℕ :=
  (p.truckCoefficients.getD (cursor % p.truckCoefficients.length) 0, cursor + 1)

/-- `while current_within_timespan >= 3600.0: current -= 3600; velocity =
maximum_velocity * next(...)`. Returns `(within, velocity, cursor)`. -/
def serviceWindows (p : Problem) : ℕ → ℚ → ℚ → ℕ → Option (ℚ × ℚ × ℕ)
  | 0, within, velocity, cursor =>
    if within ≥ 3600 then none else some (within, velocity, cursor)
  | fuel + 1, within, velocity, cursor =>
    if within ≥ 3600 then
      let c := nextCoef p cursor
      serviceWindows p fuel (within - 3600) (p.truckMaximumVelocity * c.1) c.2
    else some (within, velocity, cursor)

/-- `while distance > 0: ...` — consume the edge distance window by window.
Returns `(timestamp, within, velocity, cursor)`. -/
def driveLoop (p : Problem) :
    ℕ → ℚ → ℚ → ℚ → ℚ → ℕ → Option (ℚ × ℚ × ℚ × ℕ)
  | 0, distance, timestamp, within, velocity, cursor =>
    if distance > 0 then none else some (timestamp, within, velocity, cursor)
  | fuel + 1, distance, timestamp, within, velocity, cursor =>
    if distance > 0 then
      let timeShift := min (distance / velocity) (3600 - within)
      let timestamp := timestamp + timeShift
      let distance := distance - timeShift * velocity
      let within := within + timeShift
      if within ≥ 3600 then
        let c := nextCoef p cursor
        driveLoop p fuel distance timestamp 0 (p.truckMaximumVelocity * c.1) c.2
      else
        driveLoop p fuel distance timestamp within velocity cursor
    else some (timestamp, within, velocity, cursor)

/-- The `for index in path[1:]` loop of
`calculate_technician_arrival_timestamps`. -/
def techArrivalAux (p : Problem) (fuel : ℕ) :
    ℕ → ℚ → ℚ → ℚ → ℕ → List ℕ → Option (List ℚ)
  | _, _, _, _, _, [] => some []
  | last, prevTs, within, velocity, cursor, index :: rest => do
    let timestamp := prevTs + p.technicianServiceTime last
    let within := within + p.technicianServiceTime last
    let (within, velocity, cursor) ← serviceWindows p fuel within velocity cursor
    let (timestamp, within, velocity, cursor) ←
      driveLoop p fuel (p.distances last index) timestamp within velocity cursor
    let restTs ← techArrivalAux p fuel index timestamp within velocity cursor rest
    pure (timestamp :: restTs)

/-- `D2DPathSolution.calculate_technician_arrival_timestamps(path)`.
The source indexes `path[0]`; an empty path would raise, modelled by `none`. -/
def calculateTechnicianArrivalTimestamps (p : Problem) (fuel : ℕ)
    (path : List ℕ) : Option (List ℚ) :=
  match path with
  | [] => none
  | p0 :: rest =>
    let c := nextCoef p 0
    (techArrivalAux p fuel p0 0 0 (p.truckMaximumVelocity * c.1) c.2 rest).map
      (fun ts => 0 :: ts)

/-! ## The `D2DPathSolution` record and its constructor -/

/-- `max(*a)` over at least one value (Python's `max(*drone_timespans,
*technician_timespans)`; the call raises when fewer than two values are
present, which never happens for the fleets considered here). -/
def maxAll (l : List ℚ) : ℚ :=
  match l with
  | [] => 0
  | x :: xs => xs.foldl max x

/-- `__last_element(t) = t[-1][-1]`, 0.0 on `IndexError`. -/
def lastLast (l : List (List ℚ)) : ℚ :=
  (l.getLastD []).getLastD 0

/-- A `D2DPathSolution`: paths plus the derived metrics stored on
construction (`SolutionMetricsMixin`). -/
structure Solution where
  dronePaths : List (List (List ℕ))
  technicianPaths : List (List ℕ)
  droneArrivalTimestamps : List (List (List ℚ))
  technicianArrivalTimestamps : List (List ℚ)
  droneTimespans : List ℚ
  droneWaitingTimes : List (List ℚ)
  technicianTimespans : List ℚ
  technicianWaitingTimes : List ℚ
  deriving Repr, DecidableEq

/-- `SolutionMetricsMixin.cost()`: makespan and total waiting time. -/
def Solution.cost (s : Solution) : List ℚ :=
  [maxAll (s.droneTimespans ++ s.technicianTimespans),
    (s.droneWaitingTimes.map List.sum).sum + s.technicianWaitingTimes.sum]

/-- `get_arrival_timestamps` of `D2DPathSolution.__init__`: consecutive
sorties of one drone are chained, each starting at the previous sortie's
completion timestamp. -/
def droneArrivalsForPaths (p : Problem) (c : DroneConfig) (offset : ℚ) :
    List (List ℕ) → List (List ℚ)
  | [] => []
  | path :: rest =>
    let arrivals := calculateDroneArrivalTimestamps p c path offset
    arrivals :: droneArrivalsForPaths p c (arrivals.getLastD 0) rest

/-- `tuple(f(x) for x in xs)` for a fallible `f`: the whole construction
fails when any element fails. -/
def mapOption {α β : Type} (f : α → Option β) : List α → Option (List β)
  | [] => some []
  | x :: xs => do
    let y ← f x
    let ys ← mapOption f xs
    pure (y :: ys)

/-- `D2DPathSolution.__init__`.  Optional arguments mirror the keyword
arguments that default to `None` (a supplied value is kept verbatim, a
missing one is recomputed from the paths); the result is `none` exactly
when the truck kernel runs out of fuel.  `drone_config_mapping` is
modelled as constant: every drone uses `p.config`. -/
def mkSolution (p : Problem) (fuel : ℕ)
    (dronePaths : List (List (List ℕ))) (technicianPaths : List (List ℕ))
    (droneTimespansOpt : Option (List ℚ))
    (droneWaitingTimesOpt : Option (List (List ℚ)))
    (technicianTimespansOpt : Option (List ℚ))
    (technicianWaitingTimesOpt : Option (List ℚ)) : Option Solution := do
  let droneArrivalTimestamps := dronePaths.map (droneArrivalsForPaths p p.config 0)
  let technicianArrivalTimestamps ←
    mapOption (calculateTechnicianArrivalTimestamps p fuel) technicianPaths
  let droneTimespans := droneTimespansOpt.getD (droneArrivalTimestamps.map lastLast)
  let droneWaitingTimes := droneWaitingTimesOpt.getD
    ((dronePaths.zip droneArrivalTimestamps).map
      (fun pa => (pa.1.zip pa.2).map
        (fun pt => calculateDroneTotalWaitingTime p pt.1 pt.2)))
  let technicianTimespans := technicianTimespansOpt.getD
    (technicianArrivalTimestamps.map (fun ts => ts.getLastD 0))
  let technicianWaitingTimes := technicianWaitingTimesOpt.getD
    ((technicianPaths.zip technicianArrivalTimestamps).map
      (fun pt => calculateTechnicianTotalWaitingTime p pt.1 pt.2))
  pure {
    dronePaths := dronePaths
    technicianPaths := technicianPaths
    droneArrivalTimestamps := droneArrivalTimestamps
    technicianArrivalTimestamps := technicianArrivalTimestamps
    droneTimespans := droneTimespans
    droneWaitingTimes := droneWaitingTimes
    technicianTimespans := technicianTimespans
    technicianWaitingTimes := technicianWaitingTimes
  }

/-- `D2DPathSolution.shuffle`, with the coin flips of `random.random() < 0.5`
made explicit (`true` = reverse that path).  The stored drone and technician
timespans of the parent are passed through to the constructor; everything
else is recomputed from the reversed paths. -/
def shuffle (p : Problem) (fuel : ℕ) (s : Solution)
    (droneFlips : List (List Bool)) (techFlips : List Bool) : Option Solution :=
  let dronePaths := (s.dronePaths.zip droneFlips).map
    (fun pf => (pf.1.zip pf.2).map (fun pb => if pb.2 then pb.1.reverse else pb.1))
  let technicianPaths := (s.technicianPaths.zip techFlips).map
    (fun pb => if pb.2 then pb.1.reverse else pb.1)
  mkSolution p fuel dronePaths technicianPaths
    (some s.droneTimespans) none (some s.technicianTimespans) none

/-! ## `D2DPathSolution.initial` -/

/-- Python's `min(iterable, key=key)`: the first element attaining the
minimum key.  The source calls it on sets of customer indices, modelled as
lists sorted ascending. -/
def argminBy (key : ℕ → ℚ) : List ℕ → Option ℕ
  | [] => none
  | x :: xs => some (xs.foldl (fun best e => if key e < key best then e else best) x)

/-- `min(technician_paths, key=...)` — the position of the first
minimizing technician path. -/
def argminIdxBy (key : List ℕ → ℚ) (l : List (List ℕ)) : ℕ :=
  match l with
  | [] => 0
  | x :: xs =>
    (xs.foldl
      (fun (acc : ℕ × ℚ × ℕ) e =>
        let i := acc.2.2 + 1
        if key e < acc.2.1 then (i, key e, i) else (acc.1, acc.2.1, i))
      (0, key x, 0)).1

/-- The technician round-robin loop of `initial`: while some
technician-only customer remains, the next technician (cycling) appends the
remaining customer nearest to the end of its path.  Structural on the fuel,
which callers set to the number of remaining customers. -/
def initialTechAssign (p : Problem) :
    ℕ → List (List ℕ) → ℕ → List ℕ → List (List ℕ)
  | 0, paths, _, _ => paths
  | fuel + 1, paths, cursor, remaining =>
    match argminBy (fun e =>
        p.distances ((paths.getD (cursor % paths.length) []).getLastD 0) e)
        remaining with
    | none => paths
    | some index =>
      let slot := cursor % paths.length
      let paths := paths.set slot (paths.getD slot [] ++ [index])
      initialTechAssign p fuel paths (cursor + 1) (remaining.erase index)

/-- The drone round-robin loop of `initial`.  Each step serves the nearest
remaining dronable customer with the cycling drone's open sortie; when the
hypothetical extended sortie violates capacity or battery, the sortie is
closed, a new empty one is opened and the customer goes to the technician
whose next-to-last stop is nearest. -/
def initialDroneAssign (p : Problem) :
    ℕ → List (List (List ℕ)) → List (List ℕ) → ℕ → List ℕ →
      List (List (List ℕ)) × List (List ℕ)
  | 0, dronePaths, techPaths, _, _ => (dronePaths, techPaths)
  | fuel + 1, dronePaths, techPaths, cursor, remaining =>
    let drone := cursor % p.dronesCount
    let paths := dronePaths.getD drone []
    let path := paths.getLastD []
    match argminBy (fun e => p.distances (path.getLastD 0) e) remaining with
    | none => (dronePaths, techPaths)
    | some index =>
      let hypotheticalPath := path ++ [index, 0]
      if calculateTotalWeight p hypotheticalPath > p.config.capacity
          ∨ calculateDroneEnergyConsumption p p.config hypotheticalPath
            > p.config.battery then
        let paths := paths.dropLast ++ [path ++ [0]] ++ [[0]]
        let dronePaths := dronePaths.set drone paths
        let t := argminIdxBy
          (fun tp => p.distances index (tp.getD (tp.length - 2) 0)) techPaths
        let tp := techPaths.getD t []
        let techPaths := techPaths.set t (tp.insertIdx (tp.length - 1) index)
        initialDroneAssign p fuel dronePaths techPaths (cursor + 1)
          (remaining.erase index)
      else
        let paths := paths.dropLast ++ [path ++ [index]]
        let dronePaths := dronePaths.set drone paths
        initialDroneAssign p fuel dronePaths techPaths (cursor + 1)
          (remaining.erase index)

/-- `D2DPathSolution.initial()`. -/
def initial (p : Problem) (fuel : ℕ) : Option Solution :=
  let customers := List.range' 1 p.customersCount
  let technicianOnly := customers.filter (fun e => ¬ p.dronable e)
  let techPaths := initialTechAssign p technicianOnly.length
    (List.replicate p.techniciansCount [0]) 0 technicianOnly
  let techPaths := techPaths.map (fun path => path ++ [0])
  let dronable := customers.filter (fun e => p.dronable e)
  let dp := initialDroneAssign p dronable.length
    (List.replicate p.dronesCount [[0]]) techPaths 0 dronable
  let dronePaths := dp.1.map
    (fun paths => paths.dropLast ++ [paths.getLastD [] ++ [0]])
  let dronePaths := dronePaths.map (fun paths => paths.filter (fun q => q.length > 2))
  mkSolution p fuel dronePaths dp.2 none none none none

/-! ## `SolutionFactory.from_solution` (`ts/d2d/neighborhoods/factory.py`) -/

/-- The path-transformation data of a `SolutionFactory`. -/
structure SolutionFactory where
  appendDrones : List (ℕ × List ℕ)
  updateDrones : List (ℕ × ℕ × List ℕ)
  updateTechnicians : List (ℕ × List ℕ)
  droneWaitingTimes : List (List ℚ)
  deriving Repr

/-- The `append_drones` loop of `from_solution`. -/
def applyAppends (dp : List (List (List ℕ))) (appends : List (ℕ × List ℕ)) :
    List (List (List ℕ)) :=
  appends.foldl
    (fun dp dn =>
      if dn.2 ≠ [0, 0] then dp.set dn.1 (dp.getD dn.1 [] ++ [dn.2]) else dp)
    dp

/-- The `update_drones` loop of `from_solution`: apply each update and
collect `(path_index, drone)` for every `(0, 0)` update. -/
def applyUpdates (dp : List (List (List ℕ)))
    (updates : List (ℕ × ℕ × List ℕ)) :
    List (List (List ℕ)) × List (ℕ × ℕ) :=
  updates.foldl
    (fun acc u =>
      let dp := acc.1.set u.1 ((acc.1.getD u.1 []).set u.2.1 u.2.2)
      if u.2.2 = [0, 0] then (dp, acc.2 ++ [(u.2.1, u.1)]) else (dp, acc.2))
    (dp, [])

/-- `(a, b) >= (c, d)` lexicographically, as Python compares tuples. -/
def pairGe (a b : ℕ × ℕ) : Bool :=
  a.1 > b.1 ∨ (a.1 = b.1 ∧ a.2 ≥ b.2)

/-- Insertion step of `list.sort(reverse=True)` on `(path_index, drone)`
pairs. -/
def insertDesc (x : ℕ × ℕ) : List (ℕ × ℕ) → List (ℕ × ℕ)
  | [] => [x]
  | y :: ys => if pairGe x y then x :: y :: ys else y :: insertDesc x ys

/-- `to_remove.sort(reverse=True)`. -/
def sortDesc (l : List (ℕ × ℕ)) : List (ℕ × ℕ) :=
  l.foldr insertDesc []

/-- The removal loop of `from_solution`: pop each `(path_index, drone)` from
the drone paths and the per-path waiting times, in descending order. -/
def applyPops (dp : List (List (List ℕ))) (w : List (List ℚ))
    (toRemove : List (ℕ × ℕ)) : List (List (List ℕ)) × List (List ℚ) :=
  toRemove.foldl
    (fun acc r =>
      (acc.1.set r.2 ((acc.1.getD r.2 []).eraseIdx r.1),
        acc.2.set r.2 ((acc.2.getD r.2 []).eraseIdx r.1)))
    (dp, w)

/-- The path part of `SolutionFactory.from_solution(s)`: the drone paths,
technician paths and per-path drone waiting times of the child solution. -/
def fromSolution (f : SolutionFactory)
    (parentDronePaths : List (List (List ℕ)))
    (parentTechnicianPaths : List (List ℕ)) :
    List (List (List ℕ)) × List (List ℕ) × List (List ℚ) :=
  let dpw :=
    if f.appendDrones.length + f.updateDrones.length > 0 then
      let dp := applyAppends parentDronePaths f.appendDrones
      let du := applyUpdates dp f.updateDrones
      if du.2.length > 0 then
        applyPops du.1 f.droneWaitingTimes (sortDesc du.2)
      else
        (du.1, f.droneWaitingTimes)
    else
      (parentDronePaths, f.droneWaitingTimes)
  let technicianPaths :=
    if f.updateTechnicians.length > 0 then
      f.updateTechnicians.foldl (fun tp u => tp.set u.1 u.2) parentTechnicianPaths
    else
      parentTechnicianPaths
  (dpw.1, technicianPaths, dpw.2)

/-! ## `Swap` (`ts/d2d/neighborhoods/swap.py`) -/

/-- `Swap.__init__`: order the two lengths, then reject when the smaller
one is zero (`NeighborhoodException`).  The parent solution takes no part
in the validation. -/
def swapInit (solution : Solution) (firstLength secondLength : ℤ) :
    Except String (ℤ × ℤ) :=
  let fs := if firstLength < secondLength then (secondLength, firstLength)
    else (firstLength, secondLength)
  if fs.2 = 0 then
    .error "Invalid Swap operation"
  else
    .ok fs

/-- The tabu key recorded by `Swap.swap_drone_drone` for a candidate built
from segment `[first_start, first_start + first_length)` of `first_path`
and segment `[second_start, second_start + second_length)` of
`second_path`. -/
def swapDroneDroneKey (firstPath secondPath : List ℕ)
    (firstStart firstLength secondStart secondLength : ℕ) :
    (ℕ × ℕ) × (ℕ × ℕ) :=
  ((firstPath.getD firstStart 0, firstPath.getD (firstStart + firstLength - 1) 0),
    (secondPath.getD secondStart 0, secondPath.getD (secondStart + secondLength - 1) 0))

/-- All tabu keys produced by the `itertools.product(range(1, len(first_path)
- first_length), range(1, len(second_path) - second_length))` enumeration of
`swap_drone_drone` for one `(first, second)` pair of sorties. -/
def swapDroneDroneKeys (firstPath secondPath : List ℕ)
    (firstLength secondLength : ℕ) : List ((ℕ × ℕ) × (ℕ × ℕ)) :=
  (List.range' 1 (firstPath.length - firstLength - 1)).flatMap
    (fun fs => (List.range' 1 (secondPath.length - secondLength - 1)).map
      (fun ss => swapDroneDroneKey firstPath secondPath fs firstLength ss secondLength))

/-! ## Propagation priority (`d2d.py`) -/

/-- `normalization(value, minimum, maximum)` from `d2d.py`: division by the
range, a `ValueError` when the range is zero and the value is not close to
zero. -/
def normalization (value minimum maximum : ℚ) : Except String ℚ :=
  if maximum - minimum = 0 then
    if ¬ isclose value 0 then .error "Called with normalization"
    else .ok 0
  else
    .ok (value / (maximum - minimum))

/-- `min(cost[i] for cost in pareto_costs.keys())`. -/
def listMin (l : List ℚ) : ℚ :=
  match l with
  | [] => 0
  | x :: xs => xs.foldl min x

/-- `_ideal_distance_key(pareto_costs, minimum, maximum, candidate)` from
`d2d.py`: the normalized L1 distance from the candidate's cost to the ideal
point of the current Pareto costs. -/
def idealDistanceKey (paretoCosts : List (ℚ × ℚ)) (minimum maximum : ℚ × ℚ)
    (candidateCost : ℚ × ℚ) : Except String ℚ := do
  let ideal : ℚ × ℚ :=
    (listMin (paretoCosts.map Prod.fst), listMin (paretoCosts.map Prod.snd))
  let a ← normalization |ideal.1 - candidateCost.1| minimum.1 maximum.1
  let b ← normalization |ideal.2 - candidateCost.2| minimum.2 maximum.2
  pure (a + b)

/-! ## `MultiObjectiveSolution.tabu_search` prologue
(`ts/abc/multi_ob/solutions.py`) -/

/-- The start of `tabu_search`, up to the iteration loop: the objective
count of the initial solution's cost is checked unconditionally — before
any iteration runs — while `plot_pareto_front` only selects whether
candidate costs are going to be collected.  The loop body is abstracted by
`step`; the returned state is `step` folded over the iteration indices. -/
def tabuSearchRun {σ : Type} (initialCost : List ℚ) (plotParetoFront : Bool)
    (iterationsCount : ℕ) (init : σ) (step : ℕ → σ → σ) : Except String σ :=
  let _candidateCosts : Option (List (List ℚ)) :=
    if plotParetoFront then some [initialCost] else none
  let dimensions := initialCost.length
  if dimensions ≠ 2 then
    .error "Cannot plot the Pareto front when the number of objectives is not 2"
  else
    .ok ((List.range iterationsCount).foldl (fun s i => step i s) init)

/-- The drone configuration of the single-customer scenario `P7`. -/
def P7config : DroneConfig :=
  { takeoffSpeed := 1, cruiseSpeed := 5, landingSpeed := 1, altitude := 0,
    capacity := 10, battery := 100, beta := 0, gamma := 1 }

/-! ## Spec-side definitions

The following two definitions follow the words of the specification, not the
source; they exist only to be compared against the source-derived
definitions above. -/

/-- The closeness predicate as the spec words it: relative+absolute
tolerance `10⁻³` (the `math.isclose` convention with
`rel_tol = abs_tol = 1e-3`).  The source's `isclose` instead uses the strict
absolute bound `1e-4`. -/
def specIsclose (x y : ℚ) : Bool :=
  |x - y| ≤ max (1 / 1000 * max |x| |y|) (1 / 1000)

/-- Dominance as the spec words it: component-wise `≤` with at least one
strict inequality, components equal within `specIsclose` collapsed. -/
def specCostDominateAux (result : Bool) : List ℚ → List ℚ → Bool
  | _, [] => result
  | [], _ => result
  | f :: fs, s :: ss =>
    if specIsclose f s then specCostDominateAux result fs ss
    else if f > s then false
    else specCostDominateAux true fs ss

/-- Spec-side dominance relation (tolerance `10⁻³`). -/
def specCostDominate (first second : List ℚ) : Bool :=
  specCostDominateAux false first second

/-- `(min, max)` canonicalization of a pair of segment-endpoint pairs, as
the spec describes the Swap tabu key. -/
def canonicalKey (a b : ℕ × ℕ) : (ℕ × ℕ) × (ℕ × ℕ) :=
  if a.1 < b.1 ∨ (a.1 = b.1 ∧ a.2 ≤ b.2) then (a, b) else (b, a)

/-- A rational is a "4-decimal value" when it is an integer multiple of
`10⁻⁴` — the shape of every component `ParetoSet.add` stores (it rounds
with `round(c, 4)` before storing). -/
def Mul4 (l : List ℚ) : Prop := ∀ q ∈ l, ∃ z : ℤ, q = (z : ℚ) / 10000

/-! ## Concrete problem instances used by the witnesses and
counterexamples -/

/-- Two customers on an equilateral triangle of side 100 around the depot,
technician service times `(3600, 0)`, truck at maximum velocity 1 with
hourly coefficients `(1, 1/2)`.  One drone (which serves nobody) and one
technician. -/
def P2 : Problem := {
  customersCount := 2
  dronesCount := 1
  techniciansCount := 1
  distances := fun i j => if i = j then 0 else 100
  demands := fun _ => 0
  dronable := fun _ => false
  droneServiceTime := fun _ => 0
  technicianServiceTime := fun n => if n = 1 then 3600 else 0
  truckMaximumVelocity := 1
  truckCoefficients := [1, 1/2]
  config := { takeoffSpeed := 1, cruiseSpeed := 1, landingSpeed := 1, altitude := 0,
              capacity := 10, battery := 100, beta := 0, gamma := 1 }
}

/-- The single-customer problem of the spec's end-to-end scenario 1:
depot `(0,0)`, customer `(10,0)` (distance 10), dronable, demand 1, drone
capacity 10, LINEAR energy with `beta = 0`, `gamma = 1`, cruise speed 5 and
altitude 0; the drone service time of the customer is `s`. -/
def P7 (s : ℚ) : Problem := {
  customersCount := 1
  dronesCount := 1
  techniciansCount := 1
  distances := fun i j => if i = j then 0 else 10
  demands := fun n => if n = 1 then 1 else 0
  dronable := fun _ => true
  droneServiceTime := fun n => if n = 1 then s else 0
  technicianServiceTime := fun _ => 0
  truckMaximumVelocity := 1
  truckCoefficients := [1]
  config := P7config
}

/-- A drone configuration with positive altitude, used to separate the
repeated-node special case of the drone timestamp kernel: vertical time
`2 * (1/1 + 1/1) = 4`. -/
def highAltitudeConfig : DroneConfig :=
  { takeoffSpeed := 1, cruiseSpeed := 1, landingSpeed := 1, altitude := 2,
    capacity := 10, battery := 100, beta := 0, gamma := 1 }

/-- A minimal concrete solution value (one technician path `(0, 1, 0)`),
used where a `Swap` constructor argument is needed. -/
def sampleSolution : Solution := {
  dronePaths := []
  technicianPaths := [[0, 1, 0]]
  droneArrivalTimestamps := []
  technicianArrivalTimestamps := [[0, 10, 20]]
  droneTimespans := []
  droneWaitingTimes := []
  technicianTimespans := [20]
  technicianWaitingTimes := [10]
}

instance : DecidableEq (Except String ℚ) := fun a b =>
  match a, b with
  | .ok x, .ok y => decidable_of_iff (x = y) (by simp)
  | .error x, .error y => decidable_of_iff (x = y) (by simp)
  | .ok _, .error _ => isFalse (by simp)
  | .error _, .ok _ => isFalse (by simp)

/-! ## Claim C10 -/

/-- C10: `tabu_search` raises a `ValueError` before running any iteration
whenever the cost vector of the initial solution does not have exactly 2
components, for either value of `plot_pareto_front`: the result is the
error for every iteration body `step` and every iteration count, so no
iteration influences it. -/
theorem tabuSearch_dimension_check {σ : Type} (initialCost : List ℚ)
    (plotParetoFront : Bool) (iterationsCount : ℕ) (init : σ)
    (step : ℕ → σ → σ) (h : initialCost.length ≠ 2) :
    tabuSearchRun initialCost plotParetoFront iterationsCount init step =
      .error "Cannot plot the Pareto front when the number of objectives is not 2" := by
  simp [tabuSearchRun, h]

/-- Witness for C10: a 3-dimensional cost vector with plotting disabled. -/
theorem tabuSearch_dimension_check_witness :
    ([(1 : ℚ), 2, 3].length ≠ 2) ∧
      tabuSearchRun [(1 : ℚ), 2, 3] false 5 (0 : ℕ) (fun _ s => s + 1) =
        .error "Cannot plot the Pareto front when the number of objectives is not 2" :=
  ⟨by decide,
    tabuSearch_dimension_check [(1 : ℚ), 2, 3] false 5 0 (fun _ s => s + 1) (by decide)⟩

/-! ## Claim C9 -/

/-- Counterexample to C9: constructing `Swap` with `L1 = 100` against a
solution whose only path has length 3 succeeds — `Swap.__init__` performs
no comparison of `L1` with any path length, contradicting the claim that
`L1 > path_length` raises on construction. -/
theorem swapInit_no_path_length_check :
    sampleSolution.technicianPaths = [[0, 1, 0]]
    ∧ swapInit sampleSolution 100 1 = .ok (100, 1) := by
  exact ⟨rfl, rfl⟩

/-- C9 (amended): `Swap(L1, L2)` raises `NeighborhoodException` on
construction exactly when the smaller of the two lengths is 0, and succeeds
with the ordered pair `(max, min)` otherwise; the path lengths of the
solution are not inspected. -/
theorem swapInit_error_iff (sol : Solution) (f s : ℤ) :
    (swapInit sol f s = .error "Invalid Swap operation" ↔ min f s = 0)
    ∧ (min f s ≠ 0 → swapInit sol f s = .ok (max f s, min f s)) := by
  unfold swapInit
  rcases lt_or_ge f s with h | h
  · rw [min_eq_left h.le, max_eq_right h.le]
    simp only [if_pos h]
    by_cases hf : f = 0 <;> simp [hf]
  · rw [min_eq_right h, max_eq_left h]
    simp only [if_neg (not_lt.mpr h)]
    by_cases hs : s = 0 <;> simp [hs]

/-- Witness for C9 (amended): `Swap(3, 2)` constructs successfully. -/
theorem swapInit_error_iff_witness :
    swapInit sampleSolution 3 2 = .ok (3, 2) := by
  have h := (swapInit_error_iff sampleSolution 3 2).2 (by decide)
  simpa using h

/-! ## Claim C8 -/

/-- Counterexample to C8: with Pareto costs `{(1,5), (3,3)}` (ideal point
`(1,3)`), running minima `(1,3)` and maxima `(3,5)`, `_ideal_distance_key`
gives both candidates the key `1` — not `2/5` and `2/3` as claimed — so
candidate `(1,5)` is not ordered strictly before `(3,3)`. -/
theorem idealDistanceKey_counterexample :
    idealDistanceKey [(1, 5), (3, 3)] (1, 3) (3, 5) (1, 5) = .ok 1
    ∧ idealDistanceKey [(1, 5), (3, 3)] (1, 3) (3, 5) (3, 3) = .ok 1
    ∧ (2 : ℚ) / 5 ≠ 1 ∧ (2 : ℚ) / 3 ≠ 1 ∧ ¬ ((1 : ℚ) < 1) := by
  refine ⟨?_, ?_, by norm_num, by norm_num, by norm_num⟩ <;>
    norm_num [idealDistanceKey, normalization, listMin, isclose, Bind.bind,
      Except.bind, Pure.pure, Except.pure]

/-- C8 (amended): `normalization` divides by `maximum - minimum`, so the
key of candidate `(1,5)` is `0 + 2/(5-3)` and the key of `(3,3)` is
`2/(3-1) + 0`; the two keys are equal and the candidates tie. -/
theorem idealDistanceKey_values :
    idealDistanceKey [(1, 5), (3, 3)] (1, 3) (3, 5) (1, 5) = .ok (0 + 2 / (5 - 3))
    ∧ idealDistanceKey [(1, 5), (3, 3)] (1, 3) (3, 5) (3, 3) = .ok (2 / (3 - 1) + 0)
    ∧ (0 + 2 / ((5 : ℚ) - 3)) = 2 / ((3 : ℚ) - 1) + 0 := by
  refine ⟨?_, ?_, by norm_num⟩ <;>
    norm_num [idealDistanceKey, normalization, listMin, isclose, Bind.bind,
      Except.bind, Pure.pure, Except.pure]

/-! ## Claim C6 -/

/-- Counterexample to C6: `swap_drone_drone` stores the endpoint pairs in
processing order.  For the sorties `(0,5,0)` and `(0,3,0)` with `L1 = L2 =
1` the stored key is `((5,5),(3,3))`, which is not the `(min, max)`
canonicalization `((3,3),(5,5))`, and processing the segments in the other
order yields the different key `((3,3),(5,5))`. -/
theorem swapKey_not_canonical :
    swapDroneDroneKeys [0, 5, 0] [0, 3, 0] 1 1 = [((5, 5), (3, 3))]
    ∧ swapDroneDroneKeys [0, 3, 0] [0, 5, 0] 1 1 = [((3, 3), (5, 5))]
    ∧ canonicalKey (5, 5) (3, 3) = ((3, 3), (5, 5))
    ∧ ((5, 5), (3, 3)) ≠ (((3, 3), (5, 5)) : (ℕ × ℕ) × (ℕ × ℕ)) := by
  refine ⟨by decide, by decide, by decide, by decide⟩

/-- C6 (amended): the tabu key recorded and tested by `swap_drone_drone`
for a candidate is exactly the uncanonicalized pair of
`(first node, last node)` endpoint pairs of the two segments in processing
order; swapping the roles of the two sorties transposes the key instead of
reproducing it. -/
theorem swapKey_characterization (p1 p2 : List ℕ) (fl sl : ℕ)
    (k : (ℕ × ℕ) × (ℕ × ℕ)) :
    (k ∈ swapDroneDroneKeys p1 p2 fl sl ↔
      ∃ fs ss, 1 ≤ fs ∧ fs < p1.length - fl ∧ 1 ≤ ss ∧ ss < p2.length - sl ∧
        k = ((p1.getD fs 0, p1.getD (fs + fl - 1) 0),
          (p2.getD ss 0, p2.getD (ss + sl - 1) 0)))
    ∧ (∀ L, k ∈ swapDroneDroneKeys p2 p1 L L ↔
        (k.2, k.1) ∈ swapDroneDroneKeys p1 p2 L L) := by
  have key_mem : ∀ (q1 q2 : List ℕ) (a b : ℕ) (k' : (ℕ × ℕ) × (ℕ × ℕ)),
      k' ∈ swapDroneDroneKeys q1 q2 a b ↔
        ∃ fs ss, 1 ≤ fs ∧ fs < q1.length - a ∧ 1 ≤ ss ∧ ss < q2.length - b ∧
          k' = ((q1.getD fs 0, q1.getD (fs + a - 1) 0),
            (q2.getD ss 0, q2.getD (ss + b - 1) 0)) := by
    intro q1 q2 a b k'
    simp only [swapDroneDroneKeys, List.mem_flatMap, List.mem_map,
      List.mem_range'_1]
    constructor
    · rintro ⟨fs, ⟨h1, h2⟩, ss, ⟨h3, h4⟩, rfl⟩
      exact ⟨fs, ss, h1, by omega, h3, by omega, rfl⟩
    · rintro ⟨fs, ss, h1, h2, h3, h4, rfl⟩
      exact ⟨fs, ⟨h1, by omega⟩, ss, ⟨h3, by omega⟩, rfl⟩
  refine ⟨key_mem p1 p2 fl sl k, fun L => ?_⟩
  rw [key_mem p2 p1 L L k, key_mem p1 p2 L L (k.2, k.1)]
  constructor
  · rintro ⟨fs, ss, h1, h2, h3, h4, hk⟩
    exact ⟨ss, fs, h3, h4, h1, h2, by
      rw [Prod.ext_iff] at hk ⊢
      exact ⟨by simp [hk.2], by simp [hk.1]⟩⟩
  · rintro ⟨fs, ss, h1, h2, h3, h4, hk⟩
    rw [Prod.ext_iff] at hk
    exact ⟨ss, fs, h3, h4, h1, h2, by
      rw [Prod.ext_iff]
      exact ⟨by simpa using hk.2, by simpa using hk.1⟩⟩

/-! ## Claim C3 -/

lemma droneArrivalAux_recurrence (p : Problem) (c : DroneConfig) (v : ℚ) :
    ∀ (rest : List ℕ) (last : ℕ) (cur : ℚ),
      List.Chain (· ≠ ·) last rest →
      (droneArrivalAux p c v last cur rest).length = rest.length ∧
      ∀ i, i < rest.length →
        (cur :: droneArrivalAux p c v last cur rest).getD (i + 1) 0 =
          (cur :: droneArrivalAux p c v last cur rest).getD i 0
            + p.droneServiceTime ((last :: rest).getD i 0) + v
            + p.distances ((last :: rest).getD i 0) ((last :: rest).getD (i + 1) 0)
              / c.cruiseSpeed := by
  intro rest
  induction rest with
  | nil => intro last cur _; exact ⟨rfl, fun i hi => absurd hi (by simp)⟩
  | cons r rs ih =>
    intro last cur hchain
    rcases List.chain_cons.mp hchain with ⟨hne, hchain'⟩
    have hr : r ≠ last := fun h => hne h.symm
    have hshift : droneArrivalAux p c v last cur (r :: rs) =
        (cur + (p.droneServiceTime last + v + p.distances last r / c.cruiseSpeed))
          :: droneArrivalAux p c v r
            (cur + (p.droneServiceTime last + v + p.distances last r / c.cruiseSpeed))
            rs := by
      simp [droneArrivalAux, hr]
    obtain ⟨ihlen, ihrec⟩ := ih r
      (cur + (p.droneServiceTime last + v + p.distances last r / c.cruiseSpeed)) hchain'
    constructor
    · rw [hshift]; simp [ihlen]
    · intro i hi
      match i with
      | 0 => rw [hshift]; simp; ring
      | j + 1 =>
        rw [hshift]
        have := ihrec j (by simpa using hi)
        simpa using this

/-- Counterexample to C3: for the drone path `(0, 0)` (consecutive repeated
nodes) with a configuration of altitude 2 and unit speeds, the source sets
the shift to `0`, so the returned timestamps are `(0, 0)`, while the
claim's formula predicts `ts[1] = 0 + service[0] + vertical + dist/cruise
= 4`. -/
theorem droneTimestamps_repeated_node :
    calculateDroneArrivalTimestamps (P7 0) highAltitudeConfig [0, 0] 0 = [0, 0]
    ∧ (0 : ℚ) + (P7 0).droneServiceTime 0
        + highAltitudeConfig.altitude
          * (1 / highAltitudeConfig.takeoffSpeed + 1 / highAltitudeConfig.landingSpeed)
        + (P7 0).distances 0 0 / highAltitudeConfig.cruiseSpeed = 4
    ∧ ((0 : ℚ) ≠ 4) := by
  refine ⟨?_, ?_, by norm_num⟩
  · norm_num [calculateDroneArrivalTimestamps, droneArrivalAux, P7, highAltitudeConfig]
  · norm_num [P7, highAltitudeConfig]

/-- C3 (amended): for every drone path starting at node 0 *in which no node
is immediately repeated*, every configuration and every offset,
`calculate_drone_arrival_timestamps` returns `ts` with `ts[0] = offset` and
`ts[i] = ts[i-1] + service_time_drone[path[i-1]] + altitude *
(1/takeoff_speed + 1/landing_speed) + distance[path[i-1]][path[i]] /
cruise_speed` for `i ≥ 1` (the depot's service time contributing 0); on a
repeated node the source instead adds a zero shift. -/
theorem droneTimestamps_recurrence (p : Problem) (c : DroneConfig)
    (path : List ℕ) (offset : ℚ) (hne : path ≠ [])
    (hhead : path.headD 0 = 0) (hdepot : p.droneServiceTime 0 = 0)
    (hchain : path.Chain' (· ≠ ·)) :
    (calculateDroneArrivalTimestamps p c path offset).length = path.length
    ∧ (calculateDroneArrivalTimestamps p c path offset).getD 0 0 = offset
    ∧ ∀ i, i + 1 < path.length →
        (calculateDroneArrivalTimestamps p c path offset).getD (i + 1) 0 =
          (calculateDroneArrivalTimestamps p c path offset).getD i 0
            + p.droneServiceTime (path.getD i 0)
            + c.altitude * (1 / c.takeoffSpeed + 1 / c.landingSpeed)
            + p.distances (path.getD i 0) (path.getD (i + 1) 0) / c.cruiseSpeed := by
  match path, hne with
  | p0 :: rest, _ =>
    have hchain0 : List.Chain (· ≠ ·) p0 rest := hchain
    obtain ⟨hlen, hrec⟩ := droneArrivalAux_recurrence p c
      (c.altitude * (1 / c.takeoffSpeed + 1 / c.landingSpeed)) rest p0 offset hchain0
    have hunfold : calculateDroneArrivalTimestamps p c (p0 :: rest) offset =
        offset :: droneArrivalAux p c
          (c.altitude * (1 / c.takeoffSpeed + 1 / c.landingSpeed)) p0 offset rest := rfl
    refine ⟨by rw [hunfold]; simpa using hlen, by rw [hunfold]; rfl, ?_⟩
    intro i hi
    rw [hunfold]
    exact hrec i (by simpa using hi)

/-! ## Claim C2

The failing input: the technician path `(0, 1, 2, 0)` of `P2`.  With the
time-varying truck speed, traversing it takes 4100 s, but its reversal
takes 4000 s, because reversing moves the long service stop and so shifts
which edges fall into the slow speed window.  `shuffle` passes the
*parent's* technician timespans to the constructor of the reversed
solution, so the child stores 4100 where recomputation gives 4000. -/

lemma P2_nextCoef0 : nextCoef P2 0 = (1, 1) := by norm_num [nextCoef, P2]

lemma P2_vmax : P2.truckMaximumVelocity = 1 := rfl

lemma P2_service0 : P2.technicianServiceTime 0 = 0 := rfl

lemma P2_service1 : P2.technicianServiceTime 1 = 3600 := rfl

lemma P2_service2 : P2.technicianServiceTime 2 = 0 := rfl

lemma P2_dist01 : P2.distances 0 1 = 100 := rfl

lemma P2_dist12 : P2.distances 1 2 = 100 := rfl

lemma P2_dist20 : P2.distances 2 0 = 100 := rfl

lemma P2_dist02 : P2.distances 0 2 = 100 := rfl

lemma P2_dist21 : P2.distances 2 1 = 100 := rfl

lemma P2_dist10 : P2.distances 1 0 = 100 := rfl

lemma P2_sw1 : serviceWindows P2 2 0 1 1 = some (0, 1, 1) := by
  norm_num [serviceWindows]

lemma P2_dl1 : driveLoop P2 2 100 0 0 1 1 = some (100, 100, 1, 1) := by
  norm_num [driveLoop, nextCoef, P2, min_def]

lemma P2_sw2 : serviceWindows P2 2 3700 1 1 = some (100, 1/2, 2) := by
  norm_num [serviceWindows, nextCoef, P2]

lemma P2_dl2 : driveLoop P2 2 100 3700 100 (1/2) 2 = some (3900, 300, 1/2, 2) := by
  norm_num [driveLoop, nextCoef, P2, min_def]

lemma P2_sw3 : serviceWindows P2 2 300 (1/2) 2 = some (300, 1/2, 2) := by
  norm_num [serviceWindows]

lemma P2_dl3 : driveLoop P2 2 100 3900 300 (1/2) 2 = some (4100, 500, 1/2, 2) := by
  norm_num [driveLoop, nextCoef, P2, min_def]

/-- Forward traversal of `(0, 1, 2, 0)` takes 4100 s. -/
lemma P2_tech_forward :
    calculateTechnicianArrivalTimestamps P2 2 [0, 1, 2, 0] =
      some [0, 100, 3900, 4100] := by
  norm_num [calculateTechnicianArrivalTimestamps, techArrivalAux, P2_nextCoef0,
    P2_vmax, P2_service0, P2_service1, P2_service2, P2_dist01, P2_dist12, P2_dist20,
    P2_sw1, P2_dl1, P2_sw2, P2_dl2, P2_sw3, P2_dl3, Bind.bind, Option.bind, Pure.pure]

lemma P2_swR2 : serviceWindows P2 2 100 1 1 = some (100, 1, 1) := by
  norm_num [serviceWindows]

lemma P2_dlR2 : driveLoop P2 2 100 100 100 1 1 = some (200, 200, 1, 1) := by
  norm_num [driveLoop, nextCoef, P2, min_def]

lemma P2_swR3 : serviceWindows P2 2 3800 1 1 = some (200, 1/2, 2) := by
  norm_num [serviceWindows, nextCoef, P2]

lemma P2_dlR3 : driveLoop P2 2 100 3800 200 (1/2) 2 = some (4000, 400, 1/2, 2) := by
  norm_num [driveLoop, nextCoef, P2, min_def]

/-- The reversed traversal `(0, 2, 1, 0)` takes only 4000 s. -/
lemma P2_tech_reverse :
    calculateTechnicianArrivalTimestamps P2 2 [0, 2, 1, 0] =
      some [0, 100, 200, 4000] := by
  norm_num [calculateTechnicianArrivalTimestamps, techArrivalAux, P2_nextCoef0,
    P2_vmax, P2_service0, P2_service1, P2_service2, P2_dist02, P2_dist21, P2_dist10,
    P2_sw1, P2_dl1, P2_swR2, P2_dlR2, P2_swR3, P2_dlR3, Bind.bind, Option.bind, Pure.pure]

/-- The `P2` parent solution, fully constructed. -/
lemma P2_parent_eq : mkSolution P2 2 [[]] [[0, 1, 2, 0]] none none none none = some {
    dronePaths := [[]], technicianPaths := [[0, 1, 2, 0]],
    droneArrivalTimestamps := [[]],
    technicianArrivalTimestamps := [[0, 100, 3900, 4100]],
    droneTimespans := [0], droneWaitingTimes := [[]],
    technicianTimespans := [4100], technicianWaitingTimes := [600] } := by
  norm_num [mkSolution, P2_tech_forward, droneArrivalsForPaths, lastLast,
    calculateTechnicianTotalWaitingTime, totalWaitAux, P2_service1, P2_service2,
    mapOption, Bind.bind, Option.bind, Pure.pure, List.getD]

/-- Shuffling the parent with the technician-path coin flip set reverses
the path but keeps the stored timespan 4100. -/
lemma P2_child_eq : shuffle P2 2 {
    dronePaths := [[]], technicianPaths := [[0, 1, 2, 0]],
    droneArrivalTimestamps := [[]],
    technicianArrivalTimestamps := [[0, 100, 3900, 4100]],
    droneTimespans := [0], droneWaitingTimes := [[]],
    technicianTimespans := [4100], technicianWaitingTimes := [600] } [[]] [true] = some {
    dronePaths := [[]], technicianPaths := [[0, 2, 1, 0]],
    droneArrivalTimestamps := [[]],
    technicianArrivalTimestamps := [[0, 100, 200, 4000]],
    droneTimespans := [0], droneWaitingTimes := [[]],
    technicianTimespans := [4100], technicianWaitingTimes := [4100] } := by
  norm_num [shuffle, mkSolution, P2_tech_reverse, droneArrivalsForPaths, lastLast,
    calculateTechnicianTotalWaitingTime, totalWaitAux, P2_service1, P2_service2,
    mapOption, Bind.bind, Option.bind, Pure.pure, List.getD]

/-- A fresh construction from the child's paths alone. -/
lemma P2_recheck_eq : mkSolution P2 2 [[]] [[0, 2, 1, 0]] none none none none = some {
    dronePaths := [[]], technicianPaths := [[0, 2, 1, 0]],
    droneArrivalTimestamps := [[]],
    technicianArrivalTimestamps := [[0, 100, 200, 4000]],
    droneTimespans := [0], droneWaitingTimes := [[]],
    technicianTimespans := [4000], technicianWaitingTimes := [4100] } := by
  norm_num [mkSolution, P2_tech_reverse, droneArrivalsForPaths, lastLast,
    calculateTechnicianTotalWaitingTime, totalWaitAux, P2_service1, P2_service2,
    mapOption, Bind.bind, Option.bind, Pure.pure, List.getD]

/-- C2: the claim fails on the code.  For the `P2` parent (technician path
`(0, 1, 2, 0)`), the `shuffle` that reverses the technician path yields a
child whose stored cost is `(4100, 4100)`, while recomputing the cost from
the child's paths and the problem alone gives `(4000, 4100)`: the stored
makespan disagrees with the recomputation by 100 s, far beyond both the
source's `isclose` tolerance and the claimed `10⁻³` tolerance.  The child
carries the parent's technician timespans verbatim, but reversal changes
the traversal time under the time-varying truck speed. -/
theorem shuffle_stale_technician_timespan :
    ((mkSolution P2 2 [[]] [[0, 1, 2, 0]] none none none none).bind
        (fun parent => shuffle P2 2 parent [[]] [true])).map Solution.cost
      = some [4100, 4100]
    ∧ ((mkSolution P2 2 [[]] [[0, 1, 2, 0]] none none none none).bind
        (fun parent => (shuffle P2 2 parent [[]] [true]).bind
          (fun child => mkSolution P2 2 child.dronePaths child.technicianPaths
            none none none none))).map Solution.cost = some [4000, 4100]
    ∧ isclose 4100 4000 = false ∧ specIsclose 4100 4000 = false := by
  refine ⟨?_, ?_, ?_, ?_⟩
  · rw [P2_parent_eq]; norm_num [P2_child_eq, Solution.cost, maxAll, max_def]
  · rw [P2_parent_eq]
    norm_num [P2_child_eq, P2_recheck_eq, Solution.cost, maxAll, max_def]
  · norm_num [isclose]
  · norm_num [specIsclose]

/-- Witness for C3 (amended): the path `(0, 1, 0)` of the single-customer
problem with zero service time, at offset 0. -/
theorem droneTimestamps_recurrence_witness :
    ([0, 1, 0] ≠ ([] : List ℕ)) ∧
      (calculateDroneArrivalTimestamps (P7 0) (P7 0).config [0, 1, 0] 0).getD 1 0 =
        (calculateDroneArrivalTimestamps (P7 0) (P7 0).config [0, 1, 0] 0).getD 0 0
          + (P7 0).droneServiceTime 0
          + (P7 0).config.altitude
            * (1 / (P7 0).config.takeoffSpeed + 1 / (P7 0).config.landingSpeed)
          + (P7 0).distances 0 1 / (P7 0).config.cruiseSpeed := by
  refine ⟨by decide, ?_⟩
  have h := (droneTimestamps_recurrence (P7 0) (P7 0).config [0, 1, 0] 0
    (by decide) (by decide) (by norm_num [P7])
    (List.Chain.cons (by decide) (List.Chain.cons (by decide) List.Chain.nil))).2.2
    0 (by decide)
  simpa using h

/-! ## Claim C7 -/

lemma P7_config (s : ℚ) : (P7 s).config = P7config := rfl

lemma P7cfg_takeoff : P7config.takeoffSpeed = 1 := rfl

lemma P7cfg_cruise : P7config.cruiseSpeed = 5 := rfl

lemma P7cfg_landing : P7config.landingSpeed = 1 := rfl

lemma P7cfg_altitude : P7config.altitude = 0 := rfl

lemma P7cfg_capacity : P7config.capacity = 10 := rfl

lemma P7cfg_battery : P7config.battery = 100 := rfl

lemma P7cfg_beta : P7config.beta = 0 := rfl

lemma P7cfg_gamma : P7config.gamma = 1 := rfl

lemma P7_dist (s : ℚ) (i j : ℕ) : (P7 s).distances i j = if i = j then 0 else 10 := rfl

lemma P7_demand (s : ℚ) (n : ℕ) : (P7 s).demands n = if n = 1 then 1 else 0 := rfl

lemma P7_droneService (s : ℚ) (n : ℕ) :
    (P7 s).droneServiceTime n = if n = 1 then s else 0 := rfl

lemma P7_techService (s : ℚ) (n : ℕ) : (P7 s).technicianServiceTime n = 0 := rfl

lemma P7_drones (s : ℚ) : (P7 s).dronesCount = 1 := rfl

lemma P7_techs (s : ℚ) : (P7 s).techniciansCount = 1 := rfl

lemma P7_customers (s : ℚ) : (P7 s).customersCount = 1 := rfl

lemma P7_dronable (s : ℚ) (n : ℕ) : (P7 s).dronable n = true := rfl

/-- In `initial`, the single dronable customer is accepted into the first
drone's first sortie: the hypothetical path `(0, 1, 0)` has weight `1 ≤ 10`
and energy `4 ≤ 100`. -/
lemma P7_droneAssign (s : ℚ) :
    initialDroneAssign (P7 s) 1 [[[0]]] [[0, 0]] 0 [1] = ([[[0, 1]]], [[0, 0]]) := by
  norm_num [initialDroneAssign, argminBy, calculateTotalWeight,
    calculateDroneEnergyConsumption, droneEnergyAux, DroneConfig.power,
    P7_config, P7cfg_takeoff, P7cfg_cruise, P7cfg_landing, P7cfg_altitude,
    P7cfg_capacity, P7cfg_battery, P7cfg_beta, P7cfg_gamma,
    P7_dist, P7_demand, P7_drones]

/-- `initial` on the single-customer problem builds one drone sortie
`(0, 1, 0)` and the empty technician route `(0, 0)`. -/
lemma P7_initial_unfold (s : ℚ) :
    initial (P7 s) 2 = mkSolution (P7 s) 2 [[[0, 1, 0]]] [[0, 0]] none none none none := by
  norm_num [initial, initialTechAssign, P7_droneAssign, List.range',
    P7_customers, P7_techs, P7_drones, P7_dronable, List.replicate]

lemma P7_nextCoef0 (s : ℚ) : nextCoef (P7 s) 0 = (1, 1) := by
  norm_num [nextCoef, P7]

lemma P7_vmax (s : ℚ) : (P7 s).truckMaximumVelocity = 1 := rfl

lemma P7_tech00 (s : ℚ) :
    calculateTechnicianArrivalTimestamps (P7 s) 2 [0, 0] = some [0, 0] := by
  norm_num [calculateTechnicianArrivalTimestamps, techArrivalAux, serviceWindows,
    driveLoop, P7_nextCoef0, P7_vmax, P7_techService, P7_dist,
    Bind.bind, Option.bind, Pure.pure]

lemma P7_droneTs (s : ℚ) :
    calculateDroneArrivalTimestamps (P7 s) P7config [0, 1, 0] 0 = [0, 2, s + 4] := by
  norm_num [calculateDroneArrivalTimestamps, droneArrivalAux, P7_dist,
    P7_droneService, P7cfg_takeoff, P7cfg_cruise, P7cfg_landing, P7cfg_altitude]
  ring

lemma P7_mkSolution (s : ℚ) :
    mkSolution (P7 s) 2 [[[0, 1, 0]]] [[0, 0]] none none none none = some {
      dronePaths := [[[0, 1, 0]]], technicianPaths := [[0, 0]],
      droneArrivalTimestamps := [[[0, 2, s + 4]]],
      technicianArrivalTimestamps := [[0, 0]],
      droneTimespans := [s + 4], droneWaitingTimes := [[2]],
      technicianTimespans := [0], technicianWaitingTimes := [0] } := by
  norm_num [mkSolution, P7_tech00, droneArrivalsForPaths, P7_config, P7_droneTs,
    lastLast, calculateDroneTotalWaitingTime, calculateTechnicianTotalWaitingTime,
    totalWaitAux, P7_droneService, P7_techService, mapOption,
    Bind.bind, Option.bind, Pure.pure, List.getD]
  ring

/-- Counterexample to C7: on the single-customer problem with
`service_drone[1] = 0`, `initial()` returns the claimed sortie `(0, 1, 0)`
but with cost vector `(4, 2)` — the total waiting time is 2 (the customer
waits for the return leg), not 0 as the claim states. -/
theorem initial_single_customer_waiting :
    (initial (P7 0) 2).map Solution.cost = some [4, 2]
    ∧ ([(4 : ℚ), 2] ≠ [4, 0]) := by
  constructor
  · rw [P7_initial_unfold 0, P7_mkSolution 0]
    norm_num [Solution.cost, maxAll, max_def]
  · norm_num

/-- C7 (amended): on the single-customer problem, `initial()` returns a
solution with exactly one drone sortie `(0, 1, 0)`, the empty technician
route, and cost vector `(service_drone[1] + 4, 2)`: the makespan is as
claimed but the total waiting is 2 — the customer waits exactly the
duration of the drone's return leg. -/
theorem initial_single_customer (s : ℚ) (hs : 0 ≤ s) :
    ∃ sol, initial (P7 s) 2 = some sol
      ∧ sol.dronePaths = [[[0, 1, 0]]]
      ∧ sol.technicianPaths = [[0, 0]]
      ∧ sol.cost = [s + 4, 2] := by
  refine ⟨_, by rw [P7_initial_unfold s, P7_mkSolution s], rfl, rfl, ?_⟩
  have h4 : max (s + 4) 0 = s + 4 := max_eq_left (by linarith)
  norm_num [Solution.cost, maxAll, h4]

/-- Witness for C7 (amended): service time 3 gives cost `(7, 2)`. -/
theorem initial_single_customer_witness :
    ∃ sol, initial (P7 3) 2 = some sol
      ∧ sol.dronePaths = [[[0, 1, 0]]]
      ∧ sol.technicianPaths = [[0, 0]]
      ∧ sol.cost = [3 + 4, 2] :=
  initial_single_customer 3 (by norm_num)

/-! ## Claim C1

The infrastructure: on lists of 4-decimal values (`Mul4`), the source's
`isclose` (strict absolute tolerance `10⁻⁴`) coincides with equality, so
`cost_dominate` on stored keys is the strict product order, which is
transitive; on a well-formed Pareto set this forces the `KeyError` branch
of `add` to remove nothing whenever the insertion is rejected. -/

lemma isclose_self (x : ℚ) : isclose x x = true := by
  simp [isclose]

lemma costDominateAux_self (res : Bool) : ∀ a : List ℚ, costDominateAux res a a = res
  | [] => by simp [costDominateAux]
  | x :: xs => by
    rw [costDominateAux.eq_def]
    simp [isclose_self, costDominateAux_self res xs]

lemma costDominate_self (a : List ℚ) : costDominate a a = false :=
  costDominateAux_self false a

lemma isclose_multiple_iff {x y : ℚ} (hx : ∃ zx : ℤ, x = (zx : ℚ) / 10000)
    (hy : ∃ zy : ℤ, y = (zy : ℚ) / 10000) : isclose x y = true ↔ x = y := by
  rcases hx with ⟨zx, rfl⟩
  rcases hy with ⟨zy, rfl⟩
  rw [isclose, decide_eq_true_iff]
  rw [div_sub_div_same, abs_div]
  rw [show |(10000 : ℚ)| = 10000 by norm_num]
  rw [div_lt_div_iff₀ (by norm_num) (by norm_num)]
  rw [show ((zx : ℚ) - zy) = ((zx - zy : ℤ) : ℚ) by push_cast; ring]
  rw [← Int.cast_abs]
  constructor
  · intro h
    have h1 : |zx - zy| < 1 := by exact_mod_cast (by linarith : ((|zx - zy| : ℤ) : ℚ) < 1)
    rw [abs_lt] at h1
    have h2 : zx = zy := by omega
    rw [h2]
  · rintro h
    have h2 : zx = zy := by
      have h3 := congrArg (fun t : ℚ => t * 10000) h
      simp at h3
      exact_mod_cast h3
    subst h2
    norm_num

lemma costDominateAux_iff : ∀ (a b : List ℚ) (res : Bool), Mul4 a → Mul4 b →
    a.length = b.length →
    (costDominateAux res a b = true ↔
      (List.Forall₂ (· ≤ ·) a b ∧ (res = true ∨ a ≠ b)))
  | [], [], res => by
    intro _ _ _
    simp [costDominateAux, List.Forall₂.nil]
  | f :: fs, s :: ss, res => by
    intro ha hb hlen
    have hf : ∃ z : ℤ, f = (z : ℚ) / 10000 := ha f (List.mem_cons_self f fs)
    have hs : ∃ z : ℤ, s = (z : ℚ) / 10000 := hb s (List.mem_cons_self s ss)
    have ha' : Mul4 fs := fun q hq => ha q (List.mem_cons_of_mem f hq)
    have hb' : Mul4 ss := fun q hq => hb q (List.mem_cons_of_mem s hq)
    have hlen' : fs.length = ss.length := by simpa using hlen
    have hstep : costDominateAux res (f :: fs) (s :: ss) =
        if isclose f s = true then costDominateAux res fs ss
        else if f > s then false else costDominateAux true fs ss := rfl
    rw [hstep]
    by_cases heq : f = s
    · subst heq
      rw [if_pos (isclose_self f)]
      rw [costDominateAux_iff fs ss res ha' hb' hlen']
      constructor
      · rintro ⟨h1, h2⟩
        refine ⟨List.Forall₂.cons le_rfl h1, ?_⟩
        rcases h2 with h | h
        · exact Or.inl h
        · exact Or.inr (by simpa using h)
      · rintro ⟨h1, h2⟩
        refine ⟨(List.forall₂_cons.mp h1).2, ?_⟩
        rcases h2 with h | h
        · exact Or.inl h
        · exact Or.inr (by simpa using h)
    · have hic : ¬ isclose f s = true := by
        rw [isclose_multiple_iff hf hs]
        exact heq
      rw [if_neg hic]
      by_cases hgt : f > s
      · rw [if_pos hgt]
        constructor
        · intro h
          simp at h
        · rintro ⟨hall, _⟩
          rcases List.forall₂_cons.mp hall with ⟨hle, _⟩
          exact absurd (le_antisymm hle hgt.le) heq
      · rw [if_neg hgt]
        rw [costDominateAux_iff fs ss true ha' hb' hlen']
        have hle : f ≤ s := le_of_not_lt hgt
        constructor
        · rintro ⟨h1, _⟩
          refine ⟨List.Forall₂.cons hle h1, Or.inr ?_⟩
          simp only [ne_eq, List.cons.injEq, not_and]
          exact fun h _ => heq h
        · rintro ⟨h1, _⟩
          exact ⟨(List.forall₂_cons.mp h1).2, Or.inl rfl⟩
  | [], _ :: _, _ => by intro _ _ h; simp at h
  | _ :: _, [], _ => by intro _ _ h; simp at h

lemma costDominate_iff {a b : List ℚ} (ha : Mul4 a) (hb : Mul4 b)
    (hlen : a.length = b.length) :
    costDominate a b = true ↔ (List.Forall₂ (· ≤ ·) a b ∧ a ≠ b) := by
  rw [costDominate, costDominateAux_iff a b false ha hb hlen]
  simp

lemma forall₂_le_antisymm : ∀ {a b : List ℚ},
    List.Forall₂ (· ≤ ·) a b → List.Forall₂ (· ≤ ·) b a → a = b := by
  intro a b hab hba
  induction hab with
  | nil => rfl
  | cons h1 h2 ih =>
    rcases List.forall₂_cons.mp hba with ⟨h3, h4⟩
    rw [le_antisymm h1 h3, ih h4]

lemma forall₂_le_trans : ∀ {a b c : List ℚ},
    List.Forall₂ (· ≤ ·) a b → List.Forall₂ (· ≤ ·) b c → List.Forall₂ (· ≤ ·) a c := by
  intro a b c hab
  induction hab generalizing c with
  | nil => intro h; cases h; exact List.Forall₂.nil
  | cons h1 h2 ih =>
    intro h
    cases h with
    | cons h3 h4 => exact List.Forall₂.cons (h1.trans h3) (ih h4)

lemma costDominate_trans {a b c : List ℚ} (ha : Mul4 a) (hb : Mul4 b) (hc : Mul4 c)
    (hab : a.length = b.length) (hbc : b.length = c.length)
    (h1 : costDominate a b = true) (h2 : costDominate b c = true) :
    costDominate a c = true := by
  rw [costDominate_iff ha hb hab] at h1
  rw [costDominate_iff hb hc hbc] at h2
  rw [costDominate_iff ha hc (hab.trans hbc)]
  refine ⟨forall₂_le_trans h1.1 h2.1, ?_⟩
  rintro rfl
  exact h1.2 (forall₂_le_antisymm h1.1 h2.1)

lemma lookup_cons_eq {β : Type} (c k : List ℚ) (v : β) (rest : List (List ℚ × β)) :
    List.lookup c ((k, v) :: rest) = if c = k then some v else List.lookup c rest := by
  rw [List.lookup_cons]
  by_cases h : c = k
  · rw [if_pos h, show (c == k) = true by simp [h]]
  · rw [if_neg h, show (c == k) = false by simp [h]]

lemma lookup_eq_none_iff {β : Type} {c : List ℚ} :
    ∀ {p : List (List ℚ × β)}, List.lookup c p = none ↔ c ∉ p.map Prod.fst := by
  intro p
  induction p with
  | nil => simp [List.lookup]
  | cons kv rest ih =>
    rcases kv with ⟨k, v⟩
    rw [lookup_cons_eq]
    by_cases hk : c = k
    · subst hk
      simp
    · rw [if_neg hk, ih]
      simp only [List.map_cons, List.mem_cons]
      constructor
      · intro h hc
        rcases hc with hc | hc
        · exact hk hc
        · exact h hc
      · intro h
        exact fun hc => h (Or.inr hc)

lemma mem_lookup {β : Type} {c : List ℚ} {b : β} :
    ∀ {p : List (List ℚ × β)}, (p.map Prod.fst).Nodup → (c, b) ∈ p →
      List.lookup c p = some b := by
  intro p
  induction p with
  | nil => simp
  | cons kv rest ih =>
    rcases kv with ⟨k, v⟩
    intro hnodup hmem
    rw [lookup_cons_eq]
    rcases List.mem_cons.mp hmem with h | h
    · rw [Prod.ext_iff] at h
      rcases h with ⟨h1, h2⟩
      simp only at h1 h2
      subst h1
      subst h2
      rw [if_pos rfl]
    · have hk : c ≠ k := by
        rintro rfl
        have hmm : c ∈ rest.map Prod.fst := List.mem_map.mpr ⟨(c, b), h, rfl⟩
        exact (List.nodup_cons.mp (by simpa using hnodup)).1 hmm
      rw [if_neg hk]
      exact ih (List.nodup_cons.mp (by simpa using hnodup)).2 h

lemma evictedSolutions_nil (p : ParetoSet) : evictedSolutions p [] = [] := by
  simp [evictedSolutions]

lemma pyRound4_multiple (x : ℚ) : ∃ z : ℤ, pyRound4 x = (z : ℚ) / 10000 :=
  ⟨pyRoundInt (x * 10000), rfl⟩

lemma pyRoundInt_intCast (z : ℤ) : pyRoundInt (z : ℚ) = z := by
  rw [pyRoundInt]
  simp [Int.floor_intCast]

lemma pyRound4_div10000 (z : ℤ) : pyRound4 ((z : ℚ) / 10000) = (z : ℚ) / 10000 := by
  rw [pyRound4, div_mul_cancel₀ _ (by norm_num : (10000 : ℚ) ≠ 0), pyRoundInt_intCast]

lemma pyRound4_zero : pyRound4 0 = 0 := by
  have := pyRound4_div10000 0
  norm_num at this
  exact this

lemma pyRound4_one : pyRound4 1 = 1 := by
  have := pyRound4_div10000 10000
  norm_num at this
  exact this

lemma pyRound4_half : pyRound4 (1 / 2) = 1 / 2 := by
  have := pyRound4_div10000 5000
  norm_num at this
  exact this

lemma pyRound4_small : pyRound4 (1 / 2000) = 1 / 2000 := by
  have := pyRound4_div10000 5
  norm_num at this
  exact this

/-- Counterexample to C1: the tolerance of the claim is wrong.  With the
stored cost `(0, 1)` and a new solution of cost `(0.0005, 0.5)`, the new
key dominates the stored one under the claimed tolerance (`0.0005` is
within `10⁻³` of `0`), so the claim demands that `(0, 1)` be evicted and
returned; but the source's `isclose` bound is `10⁻⁴`, the code sees no
dominance in either direction, and `add` keeps both keys and evicts
nothing. -/
theorem paretoAdd_tolerance_counterexample :
    paretoAdd [([0, 1], [⟨1, [0, 1]⟩])] ⟨2, [1 / 2000, 1 / 2]⟩ =
      ([([0, 1], [⟨1, [0, 1]⟩]), ([1 / 2000, 1 / 2], [⟨2, [1 / 2000, 1 / 2]⟩])],
        true, [])
    ∧ specCostDominate [1 / 2000, 1 / 2] [0, 1] = true
    ∧ costDominate [1 / 2000, 1 / 2] [0, 1] = false := by
  refine ⟨?_, ?_, ?_⟩
  · have hb : ((1 : ℚ) / 2000 == (0 : ℚ)) = false :=
      beq_eq_false_iff_ne.mpr (by norm_num)
    norm_num [paretoAdd, pyRound4_small, pyRound4_half, lookup_cons_eq,
      List.lookup, evictedSolutions, costDominate, costDominateAux, isclose, hb,
      abs_of_nonneg, abs_of_nonpos]
  · norm_num [specCostDominate, specCostDominateAux, specIsclose, max_def,
      abs_of_nonneg, abs_of_nonpos]
  · norm_num [costDominate, costDominateAux, isclose, abs_of_nonneg, abs_of_nonpos]

/-- C1 (amended): the `ParetoSet.add` contract holds with dominance taken
from the source's `isclose`, whose tolerance is the strict absolute bound
`10⁻⁴` (not relative+absolute `10⁻³`).  For every well-formed Pareto set —
stored keys rounded to 4 decimals, of the cost's dimension, pairwise
non-dominating — and every solution `s` with `k = round4(s.cost)`:
if some stored key dominates `k`, the call returns `(false, ∅)` and the
set is unchanged; otherwise it returns `(true, evicted)` where every
stored key dominated by `k` is removed with all its solutions (and they
are exactly the evicted ones), every other stored entry survives
untouched, and `s` is inserted under `k`. -/
theorem paretoAdd_contract (P : ParetoSet) (s : PSol)
    (hlen : ∀ kv ∈ P, kv.1.length = s.cost.length)
    (hmul : ∀ kv ∈ P, Mul4 kv.1)
    (hnodup : (P.map Prod.fst).Nodup)
    (hpareto : ∀ kv1 ∈ P, ∀ kv2 ∈ P, costDominate kv1.1 kv2.1 = false) :
    ((∃ kv ∈ P, costDominate kv.1 (s.cost.map pyRound4) = true) →
      paretoAdd P s = (P, false, []))
    ∧ ((∀ kv ∈ P, costDominate kv.1 (s.cost.map pyRound4) = false) →
      (paretoAdd P s).2.1 = true
      ∧ (∀ kv ∈ P, costDominate (s.cost.map pyRound4) kv.1 = true →
          ∀ kv' ∈ (paretoAdd P s).1, kv'.1 ≠ kv.1)
      ∧ (∀ kv ∈ P, costDominate (s.cost.map pyRound4) kv.1 = false →
          kv.1 ≠ s.cost.map pyRound4 → kv ∈ (paretoAdd P s).1)
      ∧ (∃ bucket, (s.cost.map pyRound4, bucket) ∈ (paretoAdd P s).1 ∧ s ∈ bucket)
      ∧ (paretoAdd P s).2.2 = evictedSolutions P
          ((P.map Prod.fst).filter (fun c => costDominate (s.cost.map pyRound4) c))) := by
  set k := s.cost.map pyRound4 with hk_def
  have hk_mul : Mul4 k := by
    intro q hq
    rcases List.mem_map.mp hq with ⟨x, _, rfl⟩
    exact pyRound4_multiple x
  have hk_len : k.length = s.cost.length := by
    rw [hk_def, List.length_map]
  constructor
  · rintro ⟨kv0, hkv0, hdom0⟩
    have hknotin : k ∉ P.map Prod.fst := by
      intro hin
      rcases List.mem_map.mp hin with ⟨kv', hkv', hfst⟩
      have hfalse := hpareto kv0 hkv0 kv' hkv'
      rw [hfst, hdom0] at hfalse
      exact Bool.true_eq_false.mp hfalse
    have hlookup : List.lookup k P = none := lookup_eq_none_iff.mpr hknotin
    have hfilter_empty :
        (P.map Prod.fst).filter (fun c => costDominate k c) = [] := by
      rw [List.filter_eq_nil_iff]
      intro c hc
      rcases List.mem_map.mp hc with ⟨kvc, hkvc, rfl⟩
      intro hkc
      have htrans := costDominate_trans (hmul kv0 hkv0) hk_mul (hmul kvc hkvc)
        ((hlen kv0 hkv0).trans hk_len.symm) (hk_len.trans (hlen kvc hkvc).symm)
        hdom0 hkc
      have hfalse := hpareto kv0 hkv0 kvc hkvc
      rw [htrans] at hfalse
      exact Bool.true_eq_false.mp hfalse
    have hp'_eq : P.filter (fun kv => ¬ costDominate k kv.1) = P := by
      rw [List.filter_eq_self]
      intro kv hkv
      have hkvf : costDominate k kv.1 = false := by
        have hfe := hfilter_empty
        rw [List.filter_eq_nil_iff] at hfe
        have h2 := hfe kv.1 (List.mem_map.mpr ⟨kv, hkv, rfl⟩)
        simpa using h2
      simp [hkvf]
    have hany : ((P.filter (fun kv => ¬ costDominate k kv.1)).map Prod.fst).any
        (fun c => costDominate c k) = true := by
      rw [hp'_eq, List.any_eq_true]
      exact ⟨kv0.1, List.mem_map.mpr ⟨kv0, hkv0, rfl⟩, hdom0⟩
    rw [paretoAdd.eq_def]
    simp only [← hk_def, hlookup]
    rw [hfilter_empty, evictedSolutions_nil, hp'_eq]
    rw [hp'_eq] at hany
    rw [List.any_eq_true] at hany
    rcases hany with ⟨c, hc, hcdom⟩
    rw [if_pos (List.any_eq_true.mpr ⟨c, hc, hcdom⟩)]
  · intro hno
    by_cases hkin : k ∈ P.map Prod.fst
    · rcases List.mem_map.mp hkin with ⟨kvk, hkvk, hfst⟩
      have hlookup : List.lookup k P = some kvk.2 := by
        have hmm : (k, kvk.2) ∈ P := by
          rcases kvk with ⟨k1, b1⟩
          simp only at hfst
          rw [← hfst]
          exact hkvk
        exact mem_lookup hnodup hmm
      have hnodom : ∀ kv ∈ P, costDominate k kv.1 = false := by
        intro kv hkv
        have h := hpareto kvk hkvk kv hkv
        rwa [hfst] at h
      have hfilter_empty :
          (P.map Prod.fst).filter (fun c => costDominate k c) = [] := by
        rw [List.filter_eq_nil_iff]
        intro c hc
        rcases List.mem_map.mp hc with ⟨kvc, hkvc, rfl⟩
        rw [hnodom kvc hkvc]
        simp
      rw [paretoAdd.eq_def]
      simp only [← hk_def, hlookup]
      refine ⟨by trivial, ?_, ?_, ?_, ?_⟩
      · intro kv hkv hdom
        rw [hnodom kv hkv] at hdom
        exact absurd hdom (by simp)
      · intro kv hkv _ hne
        refine List.mem_map.mpr ⟨kv, hkv, ?_⟩
        rw [if_neg hne]
      · refine ⟨if s ∈ kvk.2 then kvk.2 else kvk.2 ++ [s], ?_, ?_⟩
        · refine List.mem_map.mpr ⟨(k, kvk.2), ?_, ?_⟩
          · rcases kvk with ⟨k1, b1⟩
            simp only at hfst
            rw [← hfst]
            exact hkvk
          · rw [if_pos rfl]
        · by_cases hs : s ∈ kvk.2
          · rw [if_pos hs]; exact hs
          · rw [if_neg hs]
            exact List.mem_append.mpr (Or.inr (List.mem_singleton.mpr rfl))
      · rw [hfilter_empty, evictedSolutions_nil]
    · have hlookup : List.lookup k P = none := lookup_eq_none_iff.mpr hkin
      have hany : ((P.filter (fun kv => ¬ costDominate k kv.1)).map Prod.fst).any
          (fun c => costDominate c k) = false := by
        rw [List.any_eq_false]
        intro c hc
        rcases List.mem_map.mp hc with ⟨kvc, hkvc, rfl⟩
        have hkvc' := List.mem_of_mem_filter hkvc
        rw [hno kvc hkvc']
        simp
      rw [paretoAdd.eq_def]
      simp only [← hk_def, hlookup]
      rw [if_neg (by rw [hany]; simp)]
      refine ⟨rfl, ?_, ?_, ?_, rfl⟩
      · intro kv hkv hdom kv' hkv' heq
        rcases List.mem_append.mp hkv' with h | h
        · have hf := List.of_mem_filter h
          rw [heq, hdom] at hf
          simp at hf
        · rw [List.mem_singleton] at h
          subst h
          simp only at heq
          rw [heq] at hdom
          have hir := costDominate_self kv.1
          rw [hdom] at hir
          exact Bool.true_eq_false.mp hir
      · intro kv hkv hdom _
        refine List.mem_append.mpr (Or.inl ?_)
        rw [List.mem_filter]
        exact ⟨hkv, by simp [hdom]⟩
      · exact ⟨[s], List.mem_append.mpr (Or.inr (List.mem_singleton.mpr rfl)),
          List.mem_singleton.mpr rfl⟩

/-- Witness for C1 (amended): adding cost `(0, 1/2)` to the set holding
`(0, 1)` succeeds. -/
theorem paretoAdd_contract_witness :
    (paretoAdd [([0, 1], [⟨1, [0, 1]⟩])] ⟨2, [0, 1 / 2]⟩).2.1 = true := by
  have hno : ∀ kv ∈ [(([0, 1] : List ℚ), [(⟨1, [0, 1]⟩ : PSol)])],
      costDominate kv.1 (([0, 1 / 2] : List ℚ).map pyRound4) = false := by
    intro kv hkv
    rw [List.mem_singleton] at hkv
    subst hkv
    norm_num [pyRound4_zero, pyRound4_half, costDominate, costDominateAux, isclose,
      abs_of_nonneg, abs_of_nonpos]
  exact ((paretoAdd_contract [([0, 1], [⟨1, [0, 1]⟩])] ⟨2, [0, 1 / 2]⟩
    (by intro kv hkv; rw [List.mem_singleton] at hkv; subst hkv; rfl)
    (by
      intro kv hkv q hq
      rw [List.mem_singleton] at hkv
      subst hkv
      simp only [List.mem_cons, List.mem_singleton, List.not_mem_nil, or_false] at hq
      rcases hq with rfl | rfl
      · exact ⟨0, by norm_num⟩
      · exact ⟨10000, by norm_num⟩)
    (by simp)
    (by
      intro kv1 h1 kv2 h2
      rw [List.mem_singleton] at h1 h2
      subst h1
      subst h2
      exact costDominate_self [0, 1])).2 hno).1

/-! ## Claim C4 -/

lemma trimTabu_eq_drop (M : ℕ) : ∀ l : List K, trimTabu M l = l.drop (l.length - M)
  | [] => by simp [trimTabu]
  | x :: xs => by
    rw [trimTabu]
    by_cases h : (x :: xs).length ≤ M
    · rw [if_pos h]
      have h0 : (x :: xs).length - M = 0 := by omega
      rw [h0, List.drop_zero]
    · rw [if_neg h]
      have h1 : (x :: xs).length - M = (xs.length - M) + 1 := by
        simp only [List.length_cons] at h ⊢
        omega
      rw [trimTabu_eq_drop M xs, h1, List.drop_succ_cons]

lemma rotateToHead_spec (k : K) :
    ∀ (a : List K) (b : List K) (fuel : ℕ), k ∉ a → a.length < fuel →
      rotateToHead k fuel (a ++ k :: b) = (a.length, k :: (b ++ a)) := by
  intro a
  induction a with
  | nil =>
    intro b fuel _ hfuel
    match fuel, hfuel with
    | f + 1, _ => simp [rotateToHead]
  | cons x a' ih =>
    intro b fuel hk hfuel
    have hxk : ¬ x = k := by
      rintro rfl
      exact hk (List.mem_cons_self x a')
    have hka : k ∉ a' := fun h => hk (List.mem_cons_of_mem x h)
    match fuel, hfuel with
    | f + 1, hfuel =>
      have hrot : rotLeft ((x :: a') ++ k :: b) = a' ++ k :: (b ++ [x]) := by
        simp [rotLeft]
      have hrec := ih (b ++ [x]) f hka (by simp at hfuel ⊢; omega)
      rw [show ((x :: a') ++ k :: b) = x :: (a' ++ k :: b) by simp]
      rw [rotateToHead, if_neg hxk]
      rw [show rotLeft (x :: (a' ++ k :: b)) = a' ++ k :: (b ++ [x]) by simp [rotLeft]]
      rw [hrec]
      refine Prod.ext (by simp) ?_
      simp

lemma rotRightOne_append (l : List K) (x : K) : rotRightOne (l ++ [x]) = x :: l := by
  have h : (l ++ [x]).length - 1 = l.length := by simp
  rw [rotRightOne, h, List.drop_left, List.take_left]
  rfl

lemma rotRight_append (a : List K) : ∀ b : List K, rotRight a.length (b ++ a) = a ++ b := by
  induction a using List.reverseRecOn with
  | nil => intro b; simp [rotRight]
  | append_singleton a' x ih =>
    intro b
    have hlen : (a' ++ [x]).length = a'.length + 1 := by simp
    rw [hlen, rotRight, Function.iterate_succ_apply]
    rw [show rotRightOne (b ++ (a' ++ [x])) = x :: (b ++ a') by
      rw [← List.append_assoc, rotRightOne_append]]
    have h := ih (x :: b)
    rw [rotRight] at h
    rw [show (x :: (b ++ a')) = (x :: b) ++ a' by simp]
    rw [h]
    simp

lemma mem_split_first {k : K} :
    ∀ {l : List K}, k ∈ l → ∃ a b, l = a ++ k :: b ∧ k ∉ a := by
  intro l
  induction l with
  | nil => intro h; simp at h
  | cons x xs ih =>
    intro hl
    by_cases hx : x = k
    · exact ⟨[], xs, by rw [hx]; rfl, by simp⟩
    · have hxs : k ∈ xs := by
        rcases List.mem_cons.mp hl with h | h
        · exact absurd h.symm hx
        · exact h
      rcases ih hxs with ⟨a, b, rfl, hka⟩
      exact ⟨x :: a, b, rfl, by
        simp only [List.mem_cons, not_or]
        exact ⟨fun h => hx h.symm, hka⟩⟩

/-- The present-key branch of `add_to_tabu`: the key is rotated out and
re-appended at the tail; the relative order of all other keys is preserved
and nothing is evicted. -/
lemma addToTabu_mem (M : ℕ) {l : List K} {k : K} (hk : k ∈ l) :
    addToTabu M l k = l.erase k ++ [k] := by
  rcases mem_split_first hk with ⟨a, b, rfl, hka⟩
  rw [addToTabu, if_pos hk]
  rw [rotateToHead_spec k a b _ hka (by simp)]
  simp only [List.tail_cons]
  rw [rotRight_append a b]
  rw [List.erase_append_right _ hka, List.erase_cons_head]

/-- The absent-key branch of `add_to_tabu`: append at the tail, then evict
from the head while over capacity. -/
lemma addToTabu_not_mem (M : ℕ) {l : List K} {k : K} (hk : k ∉ l) :
    addToTabu M l k = (l ++ [k]).drop ((l ++ [k]).length - M) := by
  rw [addToTabu, if_neg hk, trimTabu_eq_drop]

lemma tabuFold_distinct (M : ℕ) :
    ∀ (ks l : List K), (∀ x ∈ ks, x ∉ l) → ks.Nodup → l.length ≤ M →
      ks.foldl (addToTabu M) l = (l ++ ks).drop ((l ++ ks).length - M) := by
  intro ks
  induction ks with
  | nil =>
    intro l _ _ hlen
    simp only [List.foldl_nil, List.append_nil]
    rw [show l.length - M = 0 by omega, List.drop_zero]
  | cons k ks ih =>
    intro l hdisj hnodup hlen
    rw [List.foldl_cons, addToTabu_not_mem M (hdisj k (List.mem_cons_self k ks))]
    have hsub : ∀ x, x ∈ (l ++ [k]).drop ((l ++ [k]).length - M) → x ∈ l ++ [k] :=
      fun x hx => List.mem_of_mem_drop hx
    have hdisj' : ∀ x ∈ ks, x ∉ (l ++ [k]).drop ((l ++ [k]).length - M) := by
      intro x hx hxl'
      rcases List.mem_append.mp (hsub x hxl') with h | h
      · exact hdisj x (List.mem_cons_of_mem k hx) h
      · rw [List.mem_singleton] at h
        subst h
        exact (List.nodup_cons.mp hnodup).1 hx
    have hlen' : ((l ++ [k]).drop ((l ++ [k]).length - M)).length ≤ M := by
      rw [List.length_drop]
      omega
    rw [ih _ hdisj' (List.nodup_cons.mp hnodup).2 hlen']
    have hd : (l ++ [k]).length - M ≤ (l ++ [k]).length := by omega
    rw [← List.drop_append_of_le_length hd, List.drop_drop]
    rw [show (l ++ [k]) ++ ks = l ++ k :: ks by simp]
    congr 1
    rw [List.length_drop]
    simp only [List.length_append, List.length_cons, List.length_nil]
    omega

/-- C4: the tabu registry contract of `add_to_tabu` with capacity `M`:
a new key is appended at the tail, evicting from the head once the registry
exceeds `M` entries; a key already present is moved to the tail with the
relative order of the other keys preserved and nothing evicted; and
consequently, inserting `K` pairwise-distinct keys into an empty registry
leaves exactly the last `min(K, M)` of them, in insertion order. -/
theorem addToTabu_contract (M : ℕ) (l : List K) (k : K) (keys : List K) :
    (k ∉ l → addToTabu M l k = (l ++ [k]).drop ((l ++ [k]).length - M))
    ∧ (k ∈ l → addToTabu M l k = l.erase k ++ [k])
    ∧ (keys.Nodup →
        keys.foldl (addToTabu M) [] = keys.drop (keys.length - M)
        ∧ (keys.foldl (addToTabu M) []).length = min keys.length M) := by
  refine ⟨fun h => addToTabu_not_mem M h, fun h => addToTabu_mem M h, fun h => ?_⟩
  have hfold := tabuFold_distinct M keys [] (by simp) h (by simp)
  simp only [List.nil_append] at hfold
  refine ⟨hfold, ?_⟩
  rw [hfold, List.length_drop]
  omega

/-- Witness for C4: capacity 2; re-adding `2` to `[2, 1]` moves it to the
tail; inserting the distinct keys `10, 20, 30` into an empty registry
leaves `[20, 30]`. -/
theorem addToTabu_contract_witness :
    ((2 : ℕ) ∈ [2, 1] ∧ addToTabu 2 [2, 1] 2 = [1, 2])
    ∧ ([(10 : ℕ), 20, 30].Nodup
      ∧ [(10 : ℕ), 20, 30].foldl (addToTabu 2) [] = [20, 30]) := by
  refine ⟨⟨by decide, ?_⟩, by decide, ?_⟩
  · exact ((addToTabu_contract 2 [2, 1] 2 []).2.1 (by decide)).trans (by decide)
  · exact (((addToTabu_contract 2 [2, 1] 2 [10, 20, 30]).2.2 (by decide)).1).trans
      (by decide)

/-! ## Claim C5 -/

lemma getD_set_ne {α : Type} (l : List α) {m n : ℕ} (h : m ≠ n) (x d : α) :
    (l.set m x).getD n d = l.getD n d := by
  simp [List.getD_eq_getElem?_getD, List.getElem?_set_ne h]

lemma getD_set_self {α : Type} (l : List α) {n : ℕ} (h : n < l.length) (x d : α) :
    (l.set n x).getD n d = x := by
  simp [List.getD_eq_getElem?_getD, List.getElem?_set_eq_of_lt x h]

lemma eraseIdx_set {α : Type} : ∀ (l : List α) (i : ℕ) (x : α),
    (l.set i x).eraseIdx i = l.eraseIdx i
  | [], _, _ => rfl
  | _ :: _, 0, _ => rfl
  | y :: ys, j + 1, x => by
    simp only [List.set, List.eraseIdx]
    rw [eraseIdx_set ys j x]

lemma applyAppends_getD_ext (d : ℕ) :
    ∀ (ap : List (ℕ × List ℕ)) (dp : List (List (List ℕ))),
      ∃ ext, (applyAppends dp ap).getD d [] = dp.getD d [] ++ ext := by
  intro ap
  induction ap with
  | nil => intro dp; exact ⟨[], by simp [applyAppends]⟩
  | cons a rest ih =>
    intro dp
    rw [applyAppends, List.foldl_cons]
    rcases ih (if a.2 ≠ [0, 0] then dp.set a.1 (dp.getD a.1 [] ++ [a.2]) else dp)
      with ⟨ext, hext⟩
    rw [applyAppends] at hext
    by_cases h0 : a.2 = [0, 0]
    · rw [if_neg (by simp [h0])] at hext ⊢
      exact ⟨ext, hext⟩
    · rw [if_pos (by simp [h0])] at hext ⊢
      by_cases hd : a.1 = d
      · subst hd
        by_cases hlt : a.1 < dp.length
        · rw [getD_set_self dp hlt] at hext
          exact ⟨[a.2] ++ ext, by rw [hext, List.append_assoc]⟩
        · have hgd : (dp.set a.1 (dp.getD a.1 [] ++ [a.2])).getD a.1 [] =
              dp.getD a.1 [] := by
            rw [List.set_eq_of_length_le (by omega)]
          rw [hgd] at hext
          exact ⟨ext, hext⟩
      · rw [getD_set_ne dp hd] at hext
        exact ⟨ext, hext⟩

lemma applyAppends_getD_frame (d : ℕ) :
    ∀ (ap : List (ℕ × List ℕ)) (dp : List (List (List ℕ))),
      (∀ a ∈ ap, a.1 ≠ d) → (applyAppends dp ap).getD d [] = dp.getD d [] := by
  intro ap
  induction ap with
  | nil => intro dp _; simp [applyAppends]
  | cons a rest ih =>
    intro dp hap
    rw [applyAppends, List.foldl_cons]
    have hrest := ih (if a.2 ≠ [0, 0] then dp.set a.1 (dp.getD a.1 [] ++ [a.2]) else dp)
      (fun x hx => hap x (List.mem_cons_of_mem a hx))
    rw [applyAppends] at hrest
    by_cases h0 : a.2 ≠ [0, 0]
    · rw [if_pos (by simp [h0])] at hrest ⊢
      rw [hrest, getD_set_ne dp (hap a (List.mem_cons_self a rest))]
    · rw [if_neg (by simpa using h0)] at hrest ⊢
      exact hrest

lemma getD_set_apply {α : Type} (l : List α) (n : ℕ) (g : α → α) (dflt : α)
    (hg : g dflt = dflt) :
    (l.set n (g (l.getD n dflt))).getD n dflt = g (l.getD n dflt) := by
  by_cases h : n < l.length
  · exact getD_set_self l h _ dflt
  · rw [List.set_eq_of_length_le (by omega)]
    have hd : l.getD n dflt = dflt := by
      rw [List.getD_eq_getElem?_getD, List.getElem?_eq_none (by omega)]
      rfl
    rw [hd, hg]

lemma applyUpdates_foldl_fst (d : ℕ) :
    ∀ (us : List (ℕ × ℕ × List ℕ)) (dp : List (List (List ℕ)))
      (acc : List (ℕ × ℕ)),
      (us.foldl (fun acc u =>
          let dp2 := acc.1.set u.1 ((acc.1.getD u.1 []).set u.2.1 u.2.2)
          if u.2.2 = [0, 0] then (dp2, acc.2 ++ [(u.2.1, u.1)]) else (dp2, acc.2))
        (dp, acc)).1.getD d [] =
      (us.filter (fun u => u.1 = d)).foldl
        (fun l u => l.set u.2.1 u.2.2) (dp.getD d []) := by
  intro us
  induction us with
  | nil => intro dp acc; simp
  | cons u rest ih =>
    intro dp acc
    rw [List.foldl_cons]
    have hstep : ∀ acc2 : List (ℕ × ℕ),
        ((if u.2.2 = [0, 0]
          then (dp.set u.1 ((dp.getD u.1 []).set u.2.1 u.2.2), acc ++ [(u.2.1, u.1)])
          else (dp.set u.1 ((dp.getD u.1 []).set u.2.1 u.2.2), acc)).1) =
          dp.set u.1 ((dp.getD u.1 []).set u.2.1 u.2.2) := by
      intro acc2
      by_cases h : u.2.2 = [0, 0] <;> simp [h]
    by_cases hd : u.1 = d
    · subst hd
      rw [List.filter_cons_of_pos (by simp), List.foldl_cons]
      by_cases h0 : u.2.2 = [0, 0]
      · rw [if_pos h0, ih]
        congr 1
        exact getD_set_apply dp u.1 (fun p => p.set u.2.1 u.2.2) [] rfl
      · rw [if_neg h0, ih]
        congr 1
        exact getD_set_apply dp u.1 (fun p => p.set u.2.1 u.2.2) [] rfl
    · rw [List.filter_cons_of_neg (by simp [hd])]
      by_cases h0 : u.2.2 = [0, 0]
      · rw [if_pos h0, ih]
        congr 1
        exact getD_set_ne dp hd _ _
      · rw [if_neg h0, ih]
        congr 1
        exact getD_set_ne dp hd _ _

lemma applyUpdates_foldl_snd :
    ∀ (us : List (ℕ × ℕ × List ℕ)) (dp : List (List (List ℕ)))
      (acc : List (ℕ × ℕ)),
      (us.foldl (fun acc u =>
          let dp2 := acc.1.set u.1 ((acc.1.getD u.1 []).set u.2.1 u.2.2)
          if u.2.2 = [0, 0] then (dp2, acc.2 ++ [(u.2.1, u.1)]) else (dp2, acc.2))
        (dp, acc)).2 =
      acc ++ us.filterMap (fun u => if u.2.2 = [0, 0] then some (u.2.1, u.1) else none) := by
  intro us
  induction us with
  | nil => intro dp acc; simp
  | cons u rest ih =>
    intro dp acc
    rw [List.foldl_cons]
    by_cases h0 : u.2.2 = [0, 0]
    · rw [if_pos h0, ih, List.filterMap_cons]
      rw [show (if u.2.2 = [0, 0] then some (u.2.1, u.1) else none) = some (u.2.1, u.1)
        from if_pos h0]
      simp
    · rw [if_neg h0, ih, List.filterMap_cons]
      rw [show (if u.2.2 = [0, 0] then some (u.2.1, u.1) else none) = none
        from if_neg h0]

lemma applyUpdates_fst (d : ℕ) (us : List (ℕ × ℕ × List ℕ))
    (dp : List (List (List ℕ))) :
    (applyUpdates dp us).1.getD d [] =
      (us.filter (fun u => u.1 = d)).foldl
        (fun l u => l.set u.2.1 u.2.2) (dp.getD d []) :=
  applyUpdates_foldl_fst d us dp []

lemma applyUpdates_snd (us : List (ℕ × ℕ × List ℕ)) (dp : List (List (List ℕ))) :
    (applyUpdates dp us).2 =
      us.filterMap (fun u => if u.2.2 = [0, 0] then some (u.2.1, u.1) else none) :=
  (applyUpdates_foldl_snd us dp []).trans (by rw [List.nil_append])

lemma applyPops_getD (d : ℕ) :
    ∀ (pops : List (ℕ × ℕ)) (dp : List (List (List ℕ))) (w : List (List ℚ)),
      (applyPops dp w pops).1.getD d [] =
        (pops.filter (fun r => r.2 = d)).foldl
          (fun l r => l.eraseIdx r.1) (dp.getD d []) := by
  intro pops
  induction pops with
  | nil => intro dp w; simp [applyPops]
  | cons r rest ih =>
    intro dp w
    rw [applyPops, List.foldl_cons]
    have heq := ih (dp.set r.2 ((dp.getD r.2 []).eraseIdx r.1))
      (w.set r.2 ((w.getD r.2 []).eraseIdx r.1))
    rw [applyPops] at heq
    rw [heq]
    by_cases hd : r.2 = d
    · subst hd
      rw [List.filter_cons_of_pos (by simp), List.foldl_cons]
      congr 1
      exact getD_set_apply dp r.2 (fun p => p.eraseIdx r.1) [] rfl
    · rw [List.filter_cons_of_neg (by simp [hd])]
      congr 1
      exact getD_set_ne dp hd _ _

lemma insertDesc_perm (x : ℕ × ℕ) : ∀ l : List (ℕ × ℕ), (insertDesc x l).Perm (x :: l)
  | [] => List.Perm.refl _
  | y :: ys => by
    rw [insertDesc]
    by_cases h : pairGe x y
    · rw [if_pos h]
    · rw [if_neg h]
      exact (List.Perm.cons y (insertDesc_perm x ys)).trans (List.Perm.swap x y ys)

lemma sortDesc_perm : ∀ l : List (ℕ × ℕ), (sortDesc l).Perm l
  | [] => List.Perm.refl _
  | x :: xs => by
    rw [sortDesc, List.foldr_cons]
    have h1 := insertDesc_perm x (xs.foldr insertDesc [])
    have h2 := sortDesc_perm xs
    rw [sortDesc] at h2
    exact h1.trans (List.Perm.cons x h2)

lemma toRemove_filter (d : ℕ) :
    ∀ us : List (ℕ × ℕ × List ℕ),
      (us.filterMap (fun u => if u.2.2 = [0, 0] then some (u.2.1, u.1) else none)).filter
          (fun r => r.2 = d) =
        (us.filter (fun u => u.1 = d)).filterMap
          (fun u => if u.2.2 = [0, 0] then some (u.2.1, u.1) else none)
  | [] => rfl
  | u :: us => by
    rw [List.filterMap_cons]
    by_cases h0 : u.2.2 = [0, 0]
    · rw [show (if u.2.2 = [0, 0] then some (u.2.1, u.1) else none) = some (u.2.1, u.1)
        from if_pos h0]
      by_cases hd : u.1 = d
      · rw [List.filter_cons_of_pos (by simp [hd]), toRemove_filter d us,
          List.filter_cons_of_pos (by simp [hd]), List.filterMap_cons]
        rw [show (if u.2.2 = [0, 0] then some (u.2.1, u.1) else none) = some (u.2.1, u.1)
          from if_pos h0]
      · rw [List.filter_cons_of_neg (by simp [hd]), toRemove_filter d us,
          List.filter_cons_of_neg (by simp [hd])]
    · rw [show (if u.2.2 = [0, 0] then some (u.2.1, u.1) else none) = none
        from if_neg h0]
      by_cases hd : u.1 = d
      · rw [toRemove_filter d us, List.filter_cons_of_pos (by simp [hd]),
          List.filterMap_cons]
        rw [show (if u.2.2 = [0, 0] then some (u.2.1, u.1) else none) = none
          from if_neg h0]
      · rw [toRemove_filter d us, List.filter_cons_of_neg (by simp [hd])]

lemma updateTech_frame (t : ℕ) :
    ∀ (us : List (ℕ × List ℕ)) (tp : List (List ℕ)),
      (∀ u ∈ us, u.1 ≠ t) →
      (us.foldl (fun tp u => tp.set u.1 u.2) tp).getD t [] = tp.getD t []
  | [], tp, _ => rfl
  | u :: us, tp, h => by
    rw [List.foldl_cons]
    rw [updateTech_frame t us _ (fun x hx => h x (List.mem_cons_of_mem u hx))]
    exact getD_set_ne tp (h u (List.mem_cons_self u us)) _ _

lemma setFold_getD_ne (i : ℕ) :
    ∀ (us : List (ℕ × ℕ × List ℕ)) (l : List (List ℕ)),
      (∀ u ∈ us, u.2.1 ≠ i) →
      ((us.foldl (fun l u => l.set u.2.1 u.2.2) l).getD i []) = l.getD i []
  | [], l, _ => rfl
  | u :: us, l, h => by
    rw [List.foldl_cons]
    rw [setFold_getD_ne i us _ (fun x hx => h x (List.mem_cons_of_mem u hx))]
    exact getD_set_ne l (h u (List.mem_cons_self u us)) _ _

/-- C5: `from_solution` only touches the entries named in the factory: technician
paths not mentioned in `update_technicians` are unchanged; drone paths with no
append and no update are unchanged; within an updated drone's list, indexes not
targeted by any update (and with no `[0, 0]` update on that drone) keep their
paths; and a single update to `[0, 0]` at index `i` removes exactly that path. -/
theorem fromSolution_frame (f : SolutionFactory) (dp : List (List (List ℕ)))
    (tp : List (List ℕ)) :
    (∀ t, (∀ u ∈ f.updateTechnicians, u.1 ≠ t) →
      (fromSolution f dp tp).2.1.getD t [] = tp.getD t [])
    ∧ (∀ d, (∀ a ∈ f.appendDrones, a.1 ≠ d) → (∀ u ∈ f.updateDrones, u.1 ≠ d) →
      (fromSolution f dp tp).1.getD d [] = dp.getD d [])
    ∧ (∀ d i, i < (dp.getD d []).length →
        (∀ u ∈ f.updateDrones, u.1 = d → u.2.1 ≠ i ∧ u.2.2 ≠ [0, 0]) →
        ((fromSolution f dp tp).1.getD d []).getD i [] = (dp.getD d []).getD i [])
    ∧ (∀ d i, (∀ a ∈ f.appendDrones, a.1 ≠ d) →
        f.updateDrones.filter (fun u => u.1 = d) = [(d, i, [0, 0])] →
        (fromSolution f dp tp).1.getD d [] = (dp.getD d []).eraseIdx i) := by
  have hfst : ∀ d : ℕ, (fromSolution f dp tp).1.getD d [] =
      (if f.appendDrones.length + f.updateDrones.length > 0 then
        (if (applyUpdates (applyAppends dp f.appendDrones) f.updateDrones).2.length > 0
          then (applyPops (applyUpdates (applyAppends dp f.appendDrones) f.updateDrones).1
            f.droneWaitingTimes
            (sortDesc (applyUpdates (applyAppends dp f.appendDrones) f.updateDrones).2)).1
          else (applyUpdates (applyAppends dp f.appendDrones) f.updateDrones).1)
        else dp).getD d [] := by
    intro d
    rw [fromSolution]
    by_cases h : f.appendDrones.length + f.updateDrones.length > 0
    · rw [if_pos h, if_pos h]
      by_cases h2 : (applyUpdates (applyAppends dp f.appendDrones) f.updateDrones).2.length > 0
      · rw [if_pos h2, if_pos h2]
      · rw [if_neg h2, if_neg h2]
    · rw [if_neg h, if_neg h]
  refine ⟨?_, ?_, ?_, ?_⟩
  · intro t ht
    rw [fromSolution]
    by_cases h : f.updateTechnicians.length > 0
    · rw [if_pos h]
      exact updateTech_frame t f.updateTechnicians tp ht
    · rw [if_neg h]
  · intro d hap hup
    rw [hfst d]
    by_cases h : f.appendDrones.length + f.updateDrones.length > 0
    · rw [if_pos h]
      have hfilter : f.updateDrones.filter (fun u => u.1 = d) = [] := by
        rw [List.filter_eq_nil_iff]
        intro u hu
        simp [hup u hu]
      have hdu1 : (applyUpdates (applyAppends dp f.appendDrones) f.updateDrones).1.getD d []
          = dp.getD d [] := by
        rw [applyUpdates_fst, hfilter, List.foldl_nil,
          applyAppends_getD_frame d f.appendDrones dp hap]
      have hnil : (applyUpdates (applyAppends dp f.appendDrones)
          f.updateDrones).2.filter (fun r => r.2 = d) = [] := by
        rw [applyUpdates_snd, toRemove_filter, hfilter]
        rfl
      have hpopsd : (sortDesc (applyUpdates (applyAppends dp f.appendDrones)
          f.updateDrones).2).filter (fun r => r.2 = d) = [] := by
        have hperm := (sortDesc_perm (applyUpdates (applyAppends dp f.appendDrones)
          f.updateDrones).2).filter (fun r => r.2 = d)
        rw [hnil] at hperm
        exact List.Perm.eq_nil hperm
      by_cases h2 : (applyUpdates (applyAppends dp f.appendDrones) f.updateDrones).2.length > 0
      · rw [if_pos h2, applyPops_getD, hpopsd, List.foldl_nil, hdu1]
      · rw [if_neg h2, hdu1]
    · rw [if_neg h]
  · intro d i hi hup
    rw [hfst d]
    by_cases h : f.appendDrones.length + f.updateDrones.length > 0
    · rw [if_pos h]
      rcases applyAppends_getD_ext d f.appendDrones dp with ⟨ext, hext⟩
      have hdu1 : ((applyUpdates (applyAppends dp f.appendDrones) f.updateDrones).1.getD d []).getD i []
          = (dp.getD d []).getD i [] := by
        rw [applyUpdates_fst]
        rw [setFold_getD_ne i _ _ (fun u hu => (hup u (List.mem_of_mem_filter hu)
          (by simpa using (List.of_mem_filter hu))).1)]
        rw [hext]
        exact List.getD_append _ _ _ _ hi
      have hnil : (applyUpdates (applyAppends dp f.appendDrones)
          f.updateDrones).2.filter (fun r => r.2 = d) = [] := by
        rw [applyUpdates_snd, toRemove_filter, List.filterMap_eq_nil_iff]
        intro u hu
        rw [if_neg (hup u (List.mem_of_mem_filter hu)
          (by simpa using (List.of_mem_filter hu))).2]
      have hpopsd : (sortDesc (applyUpdates (applyAppends dp f.appendDrones)
          f.updateDrones).2).filter (fun r => r.2 = d) = [] := by
        have hperm := (sortDesc_perm (applyUpdates (applyAppends dp f.appendDrones)
          f.updateDrones).2).filter (fun r => r.2 = d)
        rw [hnil] at hperm
        exact List.Perm.eq_nil hperm
      by_cases h2 : (applyUpdates (applyAppends dp f.appendDrones) f.updateDrones).2.length > 0
      · rw [if_pos h2, applyPops_getD, hpopsd, List.foldl_nil, hdu1]
      · rw [if_neg h2, hdu1]
    · rw [if_neg h]
  · intro d i hap hfilter
    have hmem : (d, i, [0, 0]) ∈ f.updateDrones := by
      have : (d, i, [0, 0]) ∈ f.updateDrones.filter (fun u => u.1 = d) := by
        rw [hfilter]
        exact List.mem_singleton.mpr rfl
      exact List.mem_of_mem_filter this
    have h : f.appendDrones.length + f.updateDrones.length > 0 := by
      have := List.length_pos.mpr (List.ne_nil_of_mem hmem)
      omega
    have htoRemd : (applyUpdates (applyAppends dp f.appendDrones)
        f.updateDrones).2.filter (fun r => r.2 = d) = [(i, d)] := by
      rw [applyUpdates_snd, toRemove_filter, hfilter]
      rfl
    have h2 : (applyUpdates (applyAppends dp f.appendDrones) f.updateDrones).2.length > 0 := by
      have hm : (i, d) ∈ (applyUpdates (applyAppends dp f.appendDrones)
          f.updateDrones).2.filter (fun r => r.2 = d) := by
        rw [htoRemd]
        exact List.mem_singleton.mpr rfl
      have := List.mem_of_mem_filter hm
      exact List.length_pos.mpr (List.ne_nil_of_mem this)
    have hsortd : (sortDesc (applyUpdates (applyAppends dp f.appendDrones)
        f.updateDrones).2).filter (fun r => r.2 = d) = [(i, d)] := by
      have hperm := (sortDesc_perm (applyUpdates (applyAppends dp f.appendDrones)
        f.updateDrones).2).filter (fun r => r.2 = d)
      rw [htoRemd] at hperm
      exact List.perm_singleton.mp hperm
    have hdu1 : (applyUpdates (applyAppends dp f.appendDrones) f.updateDrones).1.getD d []
        = (dp.getD d []).set i [0, 0] := by
      rw [applyUpdates_fst, hfilter, List.foldl_cons, List.foldl_nil,
        applyAppends_getD_frame d f.appendDrones dp hap]
    rw [hfst d, if_pos h, if_pos h2, applyPops_getD, hsortd, List.foldl_cons,
      List.foldl_nil, hdu1, eraseIdx_set]

theorem fromSolution_frame_witness :
    (fromSolution ⟨[(0, [9])], [(1, 0, [0, 0])], [(0, [7])], [[0], [0]]⟩
        [[[1]], [[2], [3]]] [[4], [5]]).2.1.getD 1 [] = [5]
    ∧ (fromSolution ⟨[(0, [9])], [(1, 0, [0, 0])], [(0, [7])], [[0], [0]]⟩
        [[[1]], [[2], [3]]] [[4], [5]]).1.getD 2 [] = []
    ∧ ((fromSolution ⟨[(0, [9])], [(1, 0, [0, 0])], [(0, [7])], [[0], [0]]⟩
        [[[1]], [[2], [3]]] [[4], [5]]).1.getD 0 []).getD 0 [] = [1]
    ∧ (fromSolution ⟨[(0, [9])], [(1, 0, [0, 0])], [(0, [7])], [[0], [0]]⟩
        [[[1]], [[2], [3]]] [[4], [5]]).1.getD 1 [] = [[3]] := by
  obtain ⟨h1, h2, h3, h4⟩ := fromSolution_frame
    ⟨[(0, [9])], [(1, 0, [0, 0])], [(0, [7])], [[0], [0]]⟩
    [[[1]], [[2], [3]]] [[4], [5]]
  exact ⟨h1 1 (by decide), h2 2 (by decide) (by decide),
    (h3 0 0 (by decide) (by decide)).trans rfl,
    (h4 1 0 (by decide) (by decide)).trans rfl⟩


end TS
